import Mathlib

/-!
Verification of the Battleship Soroban contract
(src/contracts/battleship/src/lib.rs) against its natural-language
specification.

The contract entry points are shallowly embedded as pure Lean functions.
External collaborators (authorization service, game hub, token transfers,
ledger clock, hash and signature primitives, the zk verifier contract) are
modelled as follows:
- authorization: entry points are modelled after the require_auth call has
  succeeded (a failed authorization aborts the whole call in the host);
- hash: an abstract function field of the ambient context Ctx (the code
  uses keccak256);
- signature verification: an abstract boolean predicate; a failed
  ed25519_verify is a host trap, modelled by the Res.trap outcome;
- token transfers and hub notifications: transfers are recorded as an
  output list of (from, to, amount) triples; hub calls carry no state;
- storage for one session: an Option Game value (the key is fixed, claims
  are per-session); persistent session grants: an Option SessionGrant.
Machine integers: u32 values are Nat with explicit saturation at 2^32-1
where the code uses saturating ops; i128 stake amounts are Int with
explicit saturation at the i128 bounds; i128 division truncates toward
zero (Int.tdiv), as in Rust.
-/

namespace Battleship

/-! ### Machine-integer helpers -/

def U32_MAX : Nat := 2 ^ 32 - 1

def satAdd32 (a b : Nat) : Nat := min (a + b) U32_MAX

def satMul32 (a b : Nat) : Nat := min (a * b) U32_MAX

def I128_MAX : Int := 2 ^ 127 - 1

def I128_MIN : Int := -(2 ^ 127)

def satI128 (x : Int) : Int := max I128_MIN (min x I128_MAX)

def satAddI128 (a b : Int) : Int := satI128 (a + b)

def satSubI128 (a b : Int) : Int := satI128 (a - b)

def satMulI128 (a b : Int) : Int := satI128 (a * b)

/-! ### Error enum (contracterror Error in the source) -/

inductive Err where
  | GameNotFound
  | NotPlayer
  | GameAlreadyEnded
  | InvalidBoardCommitmentLength
  | BoardAlreadyCommitted
  | BoardsNotReady
  | NotYourTurn
  | InvalidCoordinate
  | AlreadyAttacked
  | PendingAttackResolution
  | NoPendingAttack
  | NotPendingDefender
  | InvalidCellReveal
  | InvalidShipCount
  | InvalidProofHash
  | MissingProofSignature
  | InvalidStakeAmount
  | BetTokenNotConfigured
  | AlreadyDeposited
  | StakesNotFunded
  | InvalidFeeBps
  | ZkVerifierNotConfigured
  | ZkVerificationFailed
  | ZkProofRequired
  | InvalidSession
  | SessionExpired
  | InvalidSessionConfig
deriving DecidableEq, Repr

/-- Outcome of a contract call: success, a typed contract error, or a host
trap (a panicking primitive such as a failed ed25519_verify). -/
inductive Res (α : Type) where
  | ok : α → Res α
  | err : Err → Res α
  | trap : Res α
deriving DecidableEq, Repr

/-! ### Data model -/

/-- The Game struct of the source, with Address as Nat and BytesN 32 cell
commitments as byte lists. -/
structure Game where
  player1 : Nat
  player2 : Nat
  player1_points : Int
  player2_points : Int
  board_size : Nat
  player1_board : Option (List (List Nat))
  player2_board : Option (List (List Nat))
  player1_ship_cells : Option Nat
  player2_ship_cells : Option Nat
  player1_hits : Nat
  player2_hits : Nat
  player1_attacks : List Nat
  player2_attacks : List Nat
  player1_hit_attacks : List Nat
  player2_hit_attacks : List Nat
  turn : Option Nat
  pending_attacker : Option Nat
  pending_defender : Option Nat
  pending_x : Option Nat
  pending_y : Option Nat
  winner : Option Nat
  player1_deposited : Bool
  player2_deposited : Bool
  payout_processed : Bool
deriving DecidableEq, Repr

structure SessionGrant where
  expires_ledger : Nat
  uses_left : Nat
deriving DecidableEq, Repr

/-- Ambient instance storage and external collaborators: presence of the
zk verifier contract and of the trusted verifier public key, the abstract
hash and signature primitives, the zk verifier adjudications, and the
escrow configuration. -/
structure Ctx where
  hash : List Nat → List Nat
  zkConfigured : Bool
  verifierKeySet : Bool
  sigOk : List Nat → List Nat → Bool
  verifyBoard : Nat → Nat → List Nat → List Nat → Bool
  verifyAttack : Nat → Nat → Nat → List Nat → List Nat → Bool
  betToken : Option Nat
  feeBps : Nat
  feeRecipient : Nat
  contractAddr : Nat

/-- A token transfer (from, to, amount) recorded as an effect. -/
abbrev Transfer := Nat × Nat × Int

def DEFAULT_BOARD_SIZE : Nat := 10

def DEFAULT_SHIP_CELLS : Nat := 17

def BPS_DENOMINATOR : Int := 10000

/-! ### Commitment codec helpers -/

def append_u32_be (bytes : List Nat) (value : Nat) : List Nat :=
  bytes ++ [value / 2 ^ 24 % 256, value / 2 ^ 16 % 256, value / 2 ^ 8 % 256, value % 256]

def compute_commitment_root (hash : List Nat → List Nat) (commitments : List (List Nat)) : List Nat :=
  hash (commitments.foldl (fun acc c => acc ++ c) [])

def build_board_proof_message (session_id ship_cells : Nat) (commitment_root proof_hash : List Nat) : List Nat :=
  append_u32_be (append_u32_be [1] session_id) ship_cells ++ commitment_root ++ proof_hash

def build_attack_proof_message (session_id x y : Nat) (is_ship : Bool) (proof_hash : List Nat) : List Nat :=
  append_u32_be (append_u32_be (append_u32_be [2] session_id) x) y
    ++ [if is_ship then 1 else 0] ++ proof_hash

def contains_u32 : List Nat → Nat → Bool
  | [], _ => false
  | v :: rest, value => if v = value then true else contains_u32 rest value

def is_wager_game (game : Game) : Bool :=
  decide (0 < game.player1_points) || decide (0 < game.player2_points)

/-! ### start_game -/

/-- The fresh Game record built by start_game. -/
def initial_game (player1 player2 : Nat) (player1_points player2_points : Int) : Game :=
  let is_wager := 0 < player1_points ∨ 0 < player2_points
  { player1 := player1
    player2 := player2
    player1_points := player1_points
    player2_points := player2_points
    board_size := DEFAULT_BOARD_SIZE
    player1_board := none
    player2_board := none
    player1_ship_cells := none
    player2_ship_cells := none
    player1_hits := 0
    player2_hits := 0
    player1_attacks := []
    player2_attacks := []
    player1_hit_attacks := []
    player2_hit_attacks := []
    turn := none
    pending_attacker := none
    pending_defender := none
    pending_x := none
    pending_y := none
    winner := none
    player1_deposited := ¬ is_wager ∨ player1_points = 0
    player2_deposited := ¬ is_wager ∨ player2_points = 0
    payout_processed := ¬ is_wager }

/-- start_game after both players have authorized and the game hub has
accepted the notification. The source performs a plain storage set on the
session key with no existence check, so the prior store content is unused:
an ok result means the store now holds exactly the returned game. -/
def start_game (_store : Option Game) (player1 player2 : Nat) (player1_points player2_points : Int) : Res Game :=
  if player1 = player2 then .err .NotPlayer
  else if player1_points < 0 ∨ player2_points < 0 then .err .InvalidStakeAmount
  else .ok (initial_game player1 player2 player1_points player2_points)

/-! ### Escrow and settlement -/

def settle_wager (ctx : Ctx) (game : Game) : Res (Game × List Transfer) :=
  if game.payout_processed then .ok (game, [])
  else if is_wager_game game = false then .ok ({ game with payout_processed := true }, [])
  else if ¬ game.player1_deposited ∨ ¬ game.player2_deposited then .err .StakesNotFunded
  else
    match game.winner with
    | none => .err .GameAlreadyEnded
    | some winner =>
      match ctx.betToken with
      | none => .err .BetTokenNotConfigured
      | some _ =>
        let total_pot := satAddI128 game.player1_points game.player2_points
        let fee_amount := Int.tdiv (satMulI128 total_pot (ctx.feeBps : Int)) BPS_DENOMINATOR
        let winner_amount := satSubI128 total_pot fee_amount
        let ts1 := if 0 < winner_amount then [(ctx.contractAddr, winner, winner_amount)] else []
        let ts2 := if 0 < fee_amount then [(ctx.contractAddr, ctx.feeRecipient, fee_amount)] else []
        .ok ({ game with payout_processed := true }, ts1 ++ ts2)

/-! ### Board commit -/

/-- The turn and ship-cell initialization performed once both boards are
present (tail of apply_board_commit in the source). -/
def finish_board_commit (game : Game) : Game :=
  if game.player1_board.isSome ∧ game.player2_board.isSome ∧ game.turn.isNone then
    { game with
        turn := some game.player1
        player1_ship_cells :=
          if game.player1_ship_cells.isNone then some DEFAULT_SHIP_CELLS else game.player1_ship_cells
        player2_ship_cells :=
          if game.player2_ship_cells.isNone then some DEFAULT_SHIP_CELLS else game.player2_ship_cells }
  else game

def apply_board_commit (game : Game) (player : Nat) (cell_commitments : List (List Nat)) (ship_cells : Nat) : Res Game :=
  if player = game.player1 then
    if game.player1_board.isSome then .err .BoardAlreadyCommitted
    else .ok (finish_board_commit
      { game with player1_board := some cell_commitments, player1_ship_cells := some ship_cells })
  else if player = game.player2 then
    if game.player2_board.isSome then .err .BoardAlreadyCommitted
    else .ok (finish_board_commit
      { game with player2_board := some cell_commitments, player2_ship_cells := some ship_cells })
  else .err .NotPlayer

/-- commit_board after the player has authorized, on a loaded game. -/
def commit_board_core (ctx : Ctx) (game : Game) (session_id player : Nat)
    (cell_commitments : List (List Nat)) (ship_cells : Nat)
    (board_proof_hash board_proof_signature : Option (List Nat)) : Res Game :=
  if game.winner.isSome then .err .GameAlreadyEnded
    else
      let board_cells := satMul32 game.board_size game.board_size
      if cell_commitments.length ≠ board_cells then .err .InvalidBoardCommitmentLength
      else if ship_cells = 0 ∨ ship_cells > board_cells then .err .InvalidShipCount
      else if is_wager_game game ∧ ¬ (game.player1_deposited ∧ game.player2_deposited) then
        .err .StakesNotFunded
      else if ctx.zkConfigured then .err .ZkProofRequired
      else if ctx.verifierKeySet then
        match board_proof_hash with
        | none => .err .MissingProofSignature
        | some proof_hash =>
          match board_proof_signature with
          | none => .err .MissingProofSignature
          | some proof_signature =>
            let commitment_root := compute_commitment_root ctx.hash cell_commitments
            let message := build_board_proof_message session_id ship_cells commitment_root proof_hash
            if ctx.sigOk message proof_signature then
              apply_board_commit game player cell_commitments ship_cells
            else .trap
      else apply_board_commit game player cell_commitments ship_cells

/-- commit_board after the player has authorized. -/
def commit_board (ctx : Ctx) (store : Option Game) (session_id player : Nat)
    (cell_commitments : List (List Nat)) (ship_cells : Nat)
    (board_proof_hash board_proof_signature : Option (List Nat)) : Res Game :=
  match store with
  | none => .err .GameNotFound
  | some game =>
    commit_board_core ctx game session_id player cell_commitments ship_cells board_proof_hash board_proof_signature

/-- commit_board_zk after the player has authorized, on a loaded game. -/
def commit_board_zk_core (ctx : Ctx) (game : Game) (session_id player : Nat)
    (cell_commitments : List (List Nat)) (ship_cells : Nat) (zk_board_proof : List Nat) : Res Game :=
  if game.winner.isSome then .err .GameAlreadyEnded
    else
      let board_cells := satMul32 game.board_size game.board_size
      if cell_commitments.length ≠ board_cells then .err .InvalidBoardCommitmentLength
      else if ship_cells = 0 ∨ ship_cells > board_cells then .err .InvalidShipCount
      else if is_wager_game game ∧ ¬ (game.player1_deposited ∧ game.player2_deposited) then
        .err .StakesNotFunded
      else if ctx.zkConfigured = false then .err .ZkVerifierNotConfigured
      else
        let commitment_root := compute_commitment_root ctx.hash cell_commitments
        if ctx.verifyBoard session_id ship_cells commitment_root zk_board_proof then
          apply_board_commit game player cell_commitments ship_cells
        else .err .ZkVerificationFailed

/-- commit_board_zk after the player has authorized. -/
def commit_board_zk (ctx : Ctx) (store : Option Game) (session_id player : Nat)
    (cell_commitments : List (List Nat)) (ship_cells : Nat) (zk_board_proof : List Nat) : Res Game :=
  match store with
  | none => .err .GameNotFound
  | some game => commit_board_zk_core ctx game session_id player cell_commitments ship_cells zk_board_proof

/-! ### Attack -/

def set_pending (game : Game) (attacker x y : Nat) : Game :=
  { game with
      pending_attacker := some attacker
      pending_defender := some (if attacker = game.player1 then game.player2 else game.player1)
      pending_x := some x
      pending_y := some y }

/-- attack after require_player_or_session_auth has succeeded, on a loaded
game. -/
def attack_core (game : Game) (attacker x y : Nat) : Res Game :=
  if game.winner.isSome then .err .GameAlreadyEnded
    else if is_wager_game game ∧ ¬ (game.player1_deposited ∧ game.player2_deposited) then
      .err .StakesNotFunded
    else if x ≥ game.board_size ∨ y ≥ game.board_size then .err .InvalidCoordinate
    else if game.player1_board.isNone ∨ game.player2_board.isNone then .err .BoardsNotReady
    else if game.pending_attacker.isSome then .err .PendingAttackResolution
    else
      match game.turn with
      | none => .err .BoardsNotReady
      | some turn =>
        if attacker ≠ turn then .err .NotYourTurn
        else
          let target_index := satAdd32 (satMul32 y game.board_size) x
          if attacker = game.player1 then
            if contains_u32 game.player1_attacks target_index then .err .AlreadyAttacked
            else .ok (set_pending game attacker x y)
          else if attacker = game.player2 then
            if contains_u32 game.player2_attacks target_index then .err .AlreadyAttacked
            else .ok (set_pending game attacker x y)
          else .err .NotPlayer

/-- attack after require_player_or_session_auth has succeeded. -/
def attack (store : Option Game) (attacker x y : Nat) : Res Game :=
  match store with
  | none => .err .GameNotFound
  | some game => attack_core game attacker x y

/-! ### Resolve -/

/-- The history, hit and turn mutation of apply_resolved_attack together
with the clearing of the pending lock, before the victory check. -/
def resolved_update (game : Game) (pending_attacker target_index : Nat) (is_ship : Bool) : Game :=
  let g1 :=
    if pending_attacker = game.player1 then
      { game with
          player1_attacks := game.player1_attacks ++ [target_index]
          player1_hits := if is_ship then satAdd32 game.player1_hits 1 else game.player1_hits
          player1_hit_attacks :=
            if is_ship then game.player1_hit_attacks ++ [target_index] else game.player1_hit_attacks
          turn := some game.player2 }
    else
      { game with
          player2_attacks := game.player2_attacks ++ [target_index]
          player2_hits := if is_ship then satAdd32 game.player2_hits 1 else game.player2_hits
          player2_hit_attacks :=
            if is_ship then game.player2_hit_attacks ++ [target_index] else game.player2_hit_attacks
          turn := some game.player1 }
  { g1 with
      pending_attacker := none, pending_defender := none, pending_x := none, pending_y := none }

/-- History and victory updates shared by both resolve paths. The game hub
end_game notification carries no contract state and is not recorded. -/
def apply_resolved_attack (ctx : Ctx) (game : Game) (target_index : Nat) (is_ship : Bool) : Res (Game × List Transfer) :=
  match game.pending_attacker with
  | none => .err .NoPendingAttack
  | some pending_attacker =>
    let g2 := resolved_update game pending_attacker target_index is_ship
    let player1_ship_cells := g2.player1_ship_cells.getD DEFAULT_SHIP_CELLS
    let player2_ship_cells := g2.player2_ship_cells.getD DEFAULT_SHIP_CELLS
    if g2.player1_hits ≥ player2_ship_cells then
      settle_wager ctx { g2 with winner := some g2.player1 }
    else if g2.player2_hits ≥ player1_ship_cells then
      settle_wager ctx { g2 with winner := some g2.player2 }
    else .ok (g2, [])

/-- The tail of resolve_attack once the defender board is selected:
cell-reveal hash check, attack-proof hash check, optional signature check,
then apply_resolved_attack. -/
def resolve_reveal (ctx : Ctx) (session_id : Nat) (game : Game) (pending_x pending_y : Nat)
    (board : List (List Nat)) (is_ship : Bool) (salt zk_proof_hash : List Nat)
    (zk_proof_signature : Option (List Nat)) : Res (Game × List Transfer) :=
  let target_index := satAdd32 (satMul32 pending_y game.board_size) pending_x
  match board.get? target_index with
  | none => .err .InvalidCoordinate
  | some expected =>
    let payload := (if is_ship then 1 else 0) :: salt
    let computed := ctx.hash payload
    if expected ≠ computed then .err .InvalidCellReveal
    else
      let proof_payload := append_u32_be (append_u32_be ((if is_ship then 1 else 0) :: salt) pending_x) pending_y
      let computed_proof_hash := ctx.hash proof_payload
      if zk_proof_hash ≠ computed_proof_hash then .err .InvalidProofHash
      else if ctx.verifierKeySet then
        match zk_proof_signature with
        | none => .err .MissingProofSignature
        | some signature =>
          if ctx.sigOk (build_attack_proof_message session_id pending_x pending_y is_ship zk_proof_hash) signature then
            apply_resolved_attack ctx game target_index is_ship
          else .trap
      else apply_resolved_attack ctx game target_index is_ship

/-- resolve_attack (direct path) after require_player_or_session_auth has
succeeded, on a loaded game. -/
def resolve_attack_core (ctx : Ctx) (session_id : Nat) (game : Game) (defender : Nat)
    (is_ship : Bool) (salt zk_proof_hash : List Nat)
    (zk_proof_signature : Option (List Nat)) : Res (Game × List Transfer) :=
  if game.winner.isSome then .err .GameAlreadyEnded
    else
      match game.pending_defender, game.pending_x, game.pending_y with
      | some pending_defender, some pending_x, some pending_y =>
        if pending_defender ≠ defender then .err .NotPendingDefender
        else if ctx.zkConfigured then .err .ZkProofRequired
        else if defender = game.player1 then
          match game.player1_board with
          | none => .err .BoardsNotReady
          | some board =>
            resolve_reveal ctx session_id game pending_x pending_y board is_ship salt zk_proof_hash zk_proof_signature
        else if defender = game.player2 then
          match game.player2_board with
          | none => .err .BoardsNotReady
          | some board =>
            resolve_reveal ctx session_id game pending_x pending_y board is_ship salt zk_proof_hash zk_proof_signature
        else .err .NotPlayer
      | _, _, _ => .err .NoPendingAttack

/-- resolve_attack (direct path) after require_player_or_session_auth has
succeeded. -/
def resolve_attack (ctx : Ctx) (session_id : Nat) (store : Option Game) (defender : Nat)
    (is_ship : Bool) (salt zk_proof_hash : List Nat)
    (zk_proof_signature : Option (List Nat)) : Res (Game × List Transfer) :=
  match store with
  | none => .err .GameNotFound
  | some game =>
    resolve_attack_core ctx session_id game defender is_ship salt zk_proof_hash zk_proof_signature

/-- resolve_attack_zk (verifier-service path) after
require_player_or_session_auth has succeeded, on a loaded game. -/
def resolve_attack_zk_core (ctx : Ctx) (session_id : Nat) (game : Game) (defender : Nat)
    (zk_attack_proof : List Nat) : Res (Game × List Transfer) :=
  if game.winner.isSome then .err .GameAlreadyEnded
    else
      match game.pending_defender, game.pending_x, game.pending_y with
      | some pending_defender, some pending_x, some pending_y =>
        if pending_defender ≠ defender then .err .NotPendingDefender
        else if ctx.zkConfigured = false then .err .ZkVerifierNotConfigured
        else
          let target_index := satAdd32 (satMul32 pending_y game.board_size) pending_x
          if defender = game.player1 then
            match game.player1_board with
            | none => .err .BoardsNotReady
            | some board =>
              match board.get? target_index with
              | none => .err .InvalidCoordinate
              | some expected =>
                apply_resolved_attack ctx game target_index
                  (ctx.verifyAttack session_id pending_x pending_y expected zk_attack_proof)
          else if defender = game.player2 then
            match game.player2_board with
            | none => .err .BoardsNotReady
            | some board =>
              match board.get? target_index with
              | none => .err .InvalidCoordinate
              | some expected =>
                apply_resolved_attack ctx game target_index
                  (ctx.verifyAttack session_id pending_x pending_y expected zk_attack_proof)
          else .err .NotPlayer
      | _, _, _ => .err .NoPendingAttack

/-- resolve_attack_zk (verifier-service path) after
require_player_or_session_auth has succeeded. -/
def resolve_attack_zk (ctx : Ctx) (session_id : Nat) (store : Option Game) (defender : Nat)
    (zk_attack_proof : List Nat) : Res (Game × List Transfer) :=
  match store with
  | none => .err .GameNotFound
  | some game => resolve_attack_zk_core ctx session_id game defender zk_attack_proof

/-! ### Stake deposit -/

def mark_deposited (game : Game) (player : Nat) : Game :=
  if player = game.player1 then { game with player1_deposited := true }
  else { game with player2_deposited := true }

def deposit_transfer (ctx : Ctx) (game : Game) (player : Nat) (amount : Int) : Res (Game × List Transfer) :=
  if amount ≤ 0 then .ok (mark_deposited game player, [])
  else
    match ctx.betToken with
    | none => .err .BetTokenNotConfigured
    | some _ => .ok (mark_deposited game player, [(player, ctx.contractAddr, amount)])

/-- deposit_stake after the player has authorized, on a loaded game. -/
def deposit_stake_core (ctx : Ctx) (game : Game) (player : Nat) : Res (Game × List Transfer) :=
  if game.winner.isSome then .err .GameAlreadyEnded
  else if is_wager_game game = false then .ok (game, [])
  else if player = game.player1 then
    if game.player1_deposited then .err .AlreadyDeposited
    else deposit_transfer ctx game player game.player1_points
  else if player = game.player2 then
    if game.player2_deposited then .err .AlreadyDeposited
    else deposit_transfer ctx game player game.player2_points
  else .err .NotPlayer

/-- deposit_stake after the player has authorized. -/
def deposit_stake (ctx : Ctx) (store : Option Game) (player : Nat) : Res (Game × List Transfer) :=
  match store with
  | none => .err .GameNotFound
  | some game => deposit_stake_core ctx game player

/-! ### Session delegation -/

/-- require_player_or_session_auth: given the current ledger sequence, the
invoker, the named player and the stored grant for (player, invoker),
returns the authorization outcome together with the new stored grant
value. -/
def require_player_or_session_auth (ledger_seq invoker player : Nat)
    (grant : Option SessionGrant) : Res Unit × Option SessionGrant :=
  if invoker = player then (.ok (), grant)
  else
    match grant with
    | none => (.err .InvalidSession, none)
    | some g =>
      if ledger_seq > g.expires_ledger then (.err .SessionExpired, none)
      else if 0 < g.uses_left then
        let remaining := g.uses_left - 1
        if remaining = 0 then (.ok (), none)
        else (.ok (), some { g with uses_left := remaining })
      else (.ok (), some g)

/-! ### Reachable session states -/

/-- One successful game-mutating contract call on an existing session. -/
inductive Step : Game → Game → Prop where
  | commit : ∀ ctx sid p cc sc ph sig g g',
      commit_board ctx (some g) sid p cc sc ph sig = .ok g' → Step g g'
  | commitZk : ∀ ctx sid p cc sc proof g g',
      commit_board_zk ctx (some g) sid p cc sc proof = .ok g' → Step g g'
  | doAttack : ∀ a x y g g',
      attack (some g) a x y = .ok g' → Step g g'
  | doResolve : ∀ ctx sid d s salt ph sig g g' ts,
      resolve_attack ctx sid (some g) d s salt ph sig = .ok (g', ts) → Step g g'
  | doResolveZk : ∀ ctx sid d proof g g' ts,
      resolve_attack_zk ctx sid (some g) d proof = .ok (g', ts) → Step g g'
  | doDeposit : ∀ ctx p g g' ts,
      deposit_stake ctx (some g) p = .ok (g', ts) → Step g g'

/-- Session states reachable from a successful start_game by any sequence
of successful contract calls. -/
inductive Reachable : Game → Prop where
  | start : ∀ store p1 p2 s1 s2 g, start_game store p1 p2 s1 s2 = .ok g → Reachable g
  | step : ∀ g g', Reachable g → Step g g' → Reachable g'

/-! ### Session invariant -/

def turnOk (game : Game) : Bool :=
  match game.turn with
  | none => true
  | some t => t = game.player1 ∨ t = game.player2

def fundedOk (game : Game) : Bool :=
  if is_wager_game game ∧ (game.player1_board.isSome ∨ game.player2_board.isSome) then
    game.player1_deposited ∧ game.player2_deposited
  else true

def pendingOk (game : Game) : Bool :=
  match game.pending_attacker, game.pending_x, game.pending_y with
  | none, _, _ => true
  | some a, some x, some y =>
    let t := satAdd32 (satMul32 y game.board_size) x
    if a = game.player1 then ¬ contains_u32 game.player1_attacks t
    else decide (a = game.player2) && ¬ contains_u32 game.player2_attacks t
  | some _, _, _ => false

def histOk (game : Game) : Bool :=
  decide game.player1_attacks.Nodup && decide game.player2_attacks.Nodup &&
  game.player1_hit_attacks.all (fun c => game.player1_attacks.contains c) &&
  game.player2_hit_attacks.all (fun c => game.player2_attacks.contains c)

/-- The inductive session invariant: duplicate-free attack histories, hit
histories contained in attack histories, the turn held by a player, wager
games funded once a board is committed, and any pending lock naming a
player and a target not yet in that player's attack history. -/
def Inv (game : Game) : Bool :=
  histOk game && turnOk game && fundedOk game && pendingOk game

/-! ### Concrete fixtures for witnesses and counterexamples -/

/-- A context with no zk verifier, no trusted signature key, the identity
function standing in for the hash primitive, a configured bet token, and
the default 500 bps fee. -/
def exCtx : Ctx :=
  { hash := fun l => l
    zkConfigured := false
    verifierKeySet := false
    sigOk := fun _ _ => true
    verifyBoard := fun _ _ _ _ => true
    verifyAttack := fun _ _ _ _ _ => true
    betToken := some 50
    feeBps := 500
    feeRecipient := 7
    contractAddr := 99 }

/-- A fresh non-wager session between players 1 and 2. -/
def exFresh : Game := initial_game 1 2 0 0

/-- A small active session: one-cell boards committed under the identity
hash (cell content: ship with salt byte 9), turn with player 1. -/
def exActive : Game :=
  { exFresh with
      board_size := 1
      player1_board := some [[1, 9]]
      player2_board := some [[1, 9]]
      player1_ship_cells := some 1
      player2_ship_cells := some 1
      turn := some 1 }

/-- exActive after player 1 has attacked cell (0, 0). -/
def exPending : Game := set_pending exActive 1 0 0

/-- exActive after the winner has been decided. -/
def exEnded : Game := { exActive with winner := some 1 }

/-- The state produced by resolving the pending hit of exPending: player 1
has hit the single opposing ship cell and wins. -/
def exResolved : Game :=
  { exActive with
      player1_attacks := [0]
      player1_hit_attacks := [0]
      player1_hits := 1
      turn := some 2
      winner := some 1 }

/-- An ended wager session awaiting settlement. -/
def exWager : Game :=
  { exFresh with
      player1_points := 100
      player2_points := 100
      winner := some 1
      player1_deposited := true
      player2_deposited := true
      payout_processed := false }

/-! ### Claim theorems -/

/-- Claim C10: for every existing non-wager session (both stake fields
zero) with no winner, deposit_stake succeeds for any authenticated caller,
including an address that is neither player, performing no transfer and
leaving the session unchanged, because the non-wager early return precedes
the player-membership check. -/
theorem C10_deposit_nonwager_noop (ctx : Ctx) (g : Game) (caller : Nat)
    (h1 : g.player1_points = 0) (h2 : g.player2_points = 0) (hw : g.winner = none) :
    deposit_stake ctx (some g) caller = .ok (g, []) := by
  simp [deposit_stake, deposit_stake_core, hw, is_wager_game, h1, h2]

theorem C10_witness :
    (999 ≠ exFresh.player1 ∧ 999 ≠ exFresh.player2) ∧
    deposit_stake exCtx (some exFresh) 999 = .ok (exFresh, []) :=
  ⟨by decide, C10_deposit_nonwager_noop exCtx exFresh 999 rfl rfl rfl⟩

/-- Claim C1 counterexample: with a session already stored for the
identifier, start_game with valid arguments succeeds again and the store
afterwards holds a fresh session different from the existing one, so the
call neither fails nor leaves the existing session unchanged. -/
theorem C1_counterexample :
    start_game (some exFresh) 1 2 5 5 = .ok (initial_game 1 2 5 5) ∧
    initial_game 1 2 5 5 ≠ exFresh := by
  exact ⟨rfl, by decide⟩

/-- Claim C1 as amended: start_game performs no existence check on the
session identifier; whenever the players are distinct and the stakes
non-negative (and both players authorize and the hub accepts), it succeeds
and stores a fresh session, regardless of any session already stored under
that identifier. -/
theorem C1_start_game_overwrites (store : Option Game) (p1 p2 : Nat) (s1 s2 : Int)
    (hne : p1 ≠ p2) (h1 : 0 ≤ s1) (h2 : 0 ≤ s2) :
    start_game store p1 p2 s1 s2 = .ok (initial_game p1 p2 s1 s2) := by
  simp [start_game, hne, not_lt.mpr h1, not_lt.mpr h2]

theorem C1_witness :
    start_game (some exFresh) 3 4 2 0 = .ok (initial_game 3 4 2 0) :=
  C1_start_game_overwrites (some exFresh) 3 4 2 0 (by decide) (by decide) (by decide)

/-- Claim C8: a delegated call (invoker distinct from the player) consumes
grants as follows: a grant with one use left authorizes the call and is
deleted, after which a further delegated call fails InvalidSession; a
grant whose expiry ledger lies before the current sequence is deleted and
the call fails SessionExpired; a grant with uses_left zero is unlimited,
authorizing the call without decrementing or deleting. -/
theorem C8_session_grants (seq inv pl : Nat) (g : SessionGrant) (hinv : inv ≠ pl) :
    (g.uses_left = 1 → seq ≤ g.expires_ledger →
      require_player_or_session_auth seq inv pl (some g) = (.ok (), none) ∧
      require_player_or_session_auth seq inv pl none = (.err .InvalidSession, none)) ∧
    (g.expires_ledger < seq →
      require_player_or_session_auth seq inv pl (some g) = (.err .SessionExpired, none)) ∧
    (g.uses_left = 0 → seq ≤ g.expires_ledger →
      require_player_or_session_auth seq inv pl (some g) = (.ok (), some g)) := by
  refine ⟨fun hu hexp => ⟨?_, ?_⟩, fun hexp => ?_, fun hu hexp => ?_⟩
  · simp [require_player_or_session_auth, hinv, Nat.not_lt.mpr hexp, hu]
  · simp [require_player_or_session_auth, hinv]
  · simp [require_player_or_session_auth, hinv, hexp]
  · simp [require_player_or_session_auth, hinv, Nat.not_lt.mpr hexp, hu]

theorem C8_witness :
    (require_player_or_session_auth 5 3 4 (some ⟨10, 1⟩) = (.ok (), none) ∧
      require_player_or_session_auth 5 3 4 none = (.err .InvalidSession, none)) ∧
    require_player_or_session_auth 20 3 4 (some ⟨10, 1⟩) = (.err .SessionExpired, none) ∧
    require_player_or_session_auth 5 3 4 (some ⟨10, 0⟩) = (.ok (), some ⟨10, 0⟩) :=
  ⟨(C8_session_grants 5 3 4 ⟨10, 1⟩ (by decide)).1 rfl (by decide),
   (C8_session_grants 20 3 4 ⟨10, 1⟩ (by decide)).2.1 (by decide),
   (C8_session_grants 5 3 4 ⟨10, 0⟩ (by decide)).2.2 rfl (by decide)⟩

/-- Claim C7: apply_board_commit succeeds at most once for each player: in
any state where a player already has a board, a further commit by that
same player fails BoardAlreadyCommitted (stated for player 1 and for
player 2), while valid commits by the two different players both succeed
in either order; immediately after the second board is stored the turn is
set to player1, both ship-cell counts are the committed ones, and
(defensively) a ship-cell count still unset when both boards are present
defaults to 17. -/
theorem C7_commit_board_once (g : Game) (cc1 cc2 cc : List (List Nat)) (sc1 sc2 sc : Nat)
    (hb1 : g.player1_board = none) (hb2 : g.player2_board = none) (ht : g.turn = none)
    (hne : g.player1 ≠ g.player2) :
    (∀ h : Game, h.player1_board.isSome = true →
      apply_board_commit h h.player1 cc sc = .err .BoardAlreadyCommitted) ∧
    (∀ h : Game, h.player2 ≠ h.player1 → h.player2_board.isSome = true →
      apply_board_commit h h.player2 cc sc = .err .BoardAlreadyCommitted) ∧
    (∃ g1, apply_board_commit g g.player1 cc1 sc1 = .ok g1 ∧
      apply_board_commit g1 g.player1 cc sc = .err .BoardAlreadyCommitted ∧
      ∃ g2, apply_board_commit g1 g.player2 cc2 sc2 = .ok g2 ∧
        apply_board_commit g2 g.player1 cc sc = .err .BoardAlreadyCommitted ∧
        apply_board_commit g2 g.player2 cc sc = .err .BoardAlreadyCommitted ∧
        g2.turn = some g.player1 ∧
        g2.player1_ship_cells = some sc1 ∧ g2.player2_ship_cells = some sc2) ∧
    (∃ g1, apply_board_commit g g.player2 cc2 sc2 = .ok g1 ∧
      apply_board_commit g1 g.player2 cc sc = .err .BoardAlreadyCommitted ∧
      ∃ g2, apply_board_commit g1 g.player1 cc1 sc1 = .ok g2 ∧
        apply_board_commit g2 g.player1 cc sc = .err .BoardAlreadyCommitted ∧
        apply_board_commit g2 g.player2 cc sc = .err .BoardAlreadyCommitted ∧
        g2.turn = some g.player1 ∧
        g2.player1_ship_cells = some sc1 ∧ g2.player2_ship_cells = some sc2) ∧
    (∀ h : Game, h.player1_board.isSome → h.player2_board.isSome → h.turn = none →
      (finish_board_commit h).turn = some h.player1 ∧
      (h.player1_ship_cells = none →
        (finish_board_commit h).player1_ship_cells = some DEFAULT_SHIP_CELLS) ∧
      (h.player2_ship_cells = none →
        (finish_board_commit h).player2_ship_cells = some DEFAULT_SHIP_CELLS)) := by
  have hD : ∀ h : Game, h.player1_board.isSome = true →
      apply_board_commit h h.player1 cc sc = .err .BoardAlreadyCommitted := by
    intro h hb
    simp [apply_board_commit, hb]
  have hE : ∀ h : Game, h.player2 ≠ h.player1 → h.player2_board.isSome = true →
      apply_board_commit h h.player2 cc sc = .err .BoardAlreadyCommitted := by
    intro h hne2 hb
    simp [apply_board_commit, hne2, hb]
  refine ⟨hD, hE, ?_, ?_, ?_⟩
  · have hfin1 : finish_board_commit
        { g with player1_board := some cc1, player1_ship_cells := some sc1 } =
        { g with player1_board := some cc1, player1_ship_cells := some sc1 } := by
      simp [finish_board_commit, hb2]
    refine ⟨{ g with player1_board := some cc1, player1_ship_cells := some sc1 }, ?_, ?_, ?_⟩
    · simp [apply_board_commit, hb1, hfin1]
    · exact hD _ rfl
    · refine ⟨{ g with
          player1_board := some cc1,
          player1_ship_cells := some sc1,
          player2_board := some cc2,
          player2_ship_cells := some sc2,
          turn := some g.player1 }, ?_, ?_, ?_, ?_, ?_, ?_⟩
      · simp [apply_board_commit, Ne.symm hne, hb2, finish_board_commit, ht]
      · exact hD _ rfl
      · exact hE _ (Ne.symm hne) rfl
      · rfl
      · rfl
      · rfl
  · refine ⟨{ g with player2_board := some cc2, player2_ship_cells := some sc2 }, ?_, ?_, ?_⟩
    · simp [apply_board_commit, Ne.symm hne, hb2, finish_board_commit, hb1]
    · exact hE _ (Ne.symm hne) rfl
    · refine ⟨{ g with
          player1_board := some cc1,
          player1_ship_cells := some sc1,
          player2_board := some cc2,
          player2_ship_cells := some sc2,
          turn := some g.player1 }, ?_, ?_, ?_, ?_, ?_, ?_⟩
      · simp [apply_board_commit, hb1, finish_board_commit, ht]
      · exact hD _ rfl
      · exact hE _ (Ne.symm hne) rfl
      · rfl
      · rfl
      · rfl
  · intro h h1 h2 h3
    refine ⟨?_, fun hn1 => ?_, fun hn2 => ?_⟩
    · simp [finish_board_commit, h1, h2, h3]
    · simp [finish_board_commit, h1, h2, h3, hn1]
    · simp [finish_board_commit, h1, h2, h3, hn2]

set_option maxRecDepth 4000 in
theorem C7_witness :
    (∃ g1, apply_board_commit exFresh exFresh.player1 [[1, 9]] 1 = .ok g1 ∧
      apply_board_commit g1 exFresh.player1 [[1, 9]] 1 = .err .BoardAlreadyCommitted ∧
      ∃ g2, apply_board_commit g1 exFresh.player2 [[1, 9]] 1 = .ok g2 ∧
        apply_board_commit g2 exFresh.player1 [[1, 9]] 1 = .err .BoardAlreadyCommitted ∧
        apply_board_commit g2 exFresh.player2 [[1, 9]] 1 = .err .BoardAlreadyCommitted ∧
        g2.turn = some exFresh.player1 ∧
        g2.player1_ship_cells = some 1 ∧ g2.player2_ship_cells = some 1) ∧
    (∃ g1, apply_board_commit exFresh exFresh.player2 [[1, 9]] 1 = .ok g1 ∧
      apply_board_commit g1 exFresh.player2 [[1, 9]] 1 = .err .BoardAlreadyCommitted ∧
      ∃ g2, apply_board_commit g1 exFresh.player1 [[1, 9]] 1 = .ok g2 ∧
        apply_board_commit g2 exFresh.player1 [[1, 9]] 1 = .err .BoardAlreadyCommitted ∧
        apply_board_commit g2 exFresh.player2 [[1, 9]] 1 = .err .BoardAlreadyCommitted ∧
        g2.turn = some exFresh.player1 ∧
        g2.player1_ship_cells = some 1 ∧ g2.player2_ship_cells = some 1) := by
  have h := C7_commit_board_once exFresh [[1, 9]] [[1, 9]] [[1, 9]] 1 1 1 rfl rfl rfl (by decide)
  exact ⟨h.2.2.1, h.2.2.2.1⟩

/-- Claim C6: for an ended wager game with both deposits present,
settlement transfers pot - floor(pot * fee_bps / 10000) to the winner and
floor(pot * fee_bps / 10000) to the fee recipient, skipping zero-amount
transfers, and sets payout_processed; a second settlement call performs no
transfers. Stakes are assumed non-negative with pot * 2000 within i128
range, and fee_bps within the 2000 cap enforced by set_fee_bps. -/
theorem C6_settlement (ctx : Ctx) (g : Game) (w tok : Nat)
    (hw : g.winner = some w) (hp : g.payout_processed = false)
    (hd1 : g.player1_deposited = true) (hd2 : g.player2_deposited = true)
    (hwager : is_wager_game g = true) (htok : ctx.betToken = some tok)
    (h1 : 0 ≤ g.player1_points) (h2 : 0 ≤ g.player2_points)
    (hbps : ctx.feeBps ≤ 2000)
    (hrange : (g.player1_points + g.player2_points) * 2000 ≤ I128_MAX) :
    settle_wager ctx g = .ok ({ g with payout_processed := true },
      (if 0 < g.player1_points + g.player2_points -
            (g.player1_points + g.player2_points) * (ctx.feeBps : Int) / 10000 then
        [(ctx.contractAddr, w, g.player1_points + g.player2_points -
            (g.player1_points + g.player2_points) * (ctx.feeBps : Int) / 10000)]
      else []) ++
      (if 0 < (g.player1_points + g.player2_points) * (ctx.feeBps : Int) / 10000 then
        [(ctx.contractAddr, ctx.feeRecipient,
            (g.player1_points + g.player2_points) * (ctx.feeBps : Int) / 10000)]
      else [])) ∧
    settle_wager ctx { g with payout_processed := true } =
      .ok ({ g with payout_processed := true }, []) := by
  have hpot : (0 : Int) ≤ g.player1_points + g.player2_points := add_nonneg h1 h2
  have hbound : g.player1_points + g.player2_points ≤ I128_MAX :=
    le_trans (le_mul_of_one_le_right hpot (by norm_num)) hrange
  have hminpot : I128_MIN ≤ g.player1_points + g.player2_points :=
    le_trans (by norm_num [I128_MIN]) hpot
  have hsadd : satAddI128 g.player1_points g.player2_points = g.player1_points + g.player2_points := by
    unfold satAddI128 satI128
    rw [min_eq_left hbound, max_eq_right hminpot]
  have hbpsI : (ctx.feeBps : Int) ≤ 2000 := by exact_mod_cast hbps
  have hbps0 : (0 : Int) ≤ (ctx.feeBps : Int) := Int.natCast_nonneg _
  have hmul0 : (0 : Int) ≤ (g.player1_points + g.player2_points) * (ctx.feeBps : Int) :=
    mul_nonneg hpot hbps0
  have hmulbound : (g.player1_points + g.player2_points) * (ctx.feeBps : Int) ≤ I128_MAX :=
    le_trans (mul_le_mul_of_nonneg_left hbpsI hpot) hrange
  have hsmul : satMulI128 (g.player1_points + g.player2_points) (ctx.feeBps : Int) =
      (g.player1_points + g.player2_points) * (ctx.feeBps : Int) := by
    unfold satMulI128 satI128
    rw [min_eq_left hmulbound, max_eq_right (le_trans (by norm_num [I128_MIN]) hmul0)]
  have htd : Int.tdiv ((g.player1_points + g.player2_points) * (ctx.feeBps : Int)) BPS_DENOMINATOR =
      (g.player1_points + g.player2_points) * (ctx.feeBps : Int) / 10000 := by
    unfold BPS_DENOMINATOR
    exact Int.tdiv_eq_ediv hmul0 (by norm_num)
  have hfee0 : (0 : Int) ≤ (g.player1_points + g.player2_points) * (ctx.feeBps : Int) / 10000 :=
    Int.ediv_nonneg hmul0 (by norm_num)
  have hfeele : (g.player1_points + g.player2_points) * (ctx.feeBps : Int) / 10000 ≤
      g.player1_points + g.player2_points := by
    calc (g.player1_points + g.player2_points) * (ctx.feeBps : Int) / 10000
        ≤ (g.player1_points + g.player2_points) * 10000 / 10000 :=
          Int.ediv_le_ediv (by norm_num)
            (mul_le_mul_of_nonneg_left (le_trans hbpsI (by norm_num)) hpot)
      _ = g.player1_points + g.player2_points := Int.mul_ediv_cancel _ (by norm_num)
  have hssub : satSubI128 (g.player1_points + g.player2_points)
      ((g.player1_points + g.player2_points) * (ctx.feeBps : Int) / 10000) =
      g.player1_points + g.player2_points -
        (g.player1_points + g.player2_points) * (ctx.feeBps : Int) / 10000 := by
    unfold satSubI128 satI128
    rw [min_eq_left (le_trans (by linarith) hbound),
      max_eq_right (le_trans (by norm_num [I128_MIN]) (show (0 : Int) ≤ _ by linarith))]
  constructor
  · simp only [settle_wager, hp, hwager, hd1, hd2, hw, htok, hsadd, hsmul, htd, hssub]
    simp
  · simp [settle_wager]

set_option maxRecDepth 4000 in
theorem C6_witness :
    settle_wager exCtx exWager =
      .ok ({ exWager with payout_processed := true }, [(99, 1, 190), (99, 7, 10)]) ∧
    settle_wager exCtx { exWager with payout_processed := true } =
      .ok ({ exWager with payout_processed := true }, []) := by
  have h := C6_settlement exCtx exWager 1 50 rfl rfl rfl rfl (by decide) rfl
    (by decide) (by decide) (by decide) (by norm_num [exWager, exFresh, initial_game, I128_MAX])
  exact ⟨h.1.trans (by decide), h.2⟩

/-- Helper: a successful settle_wager either leaves the game unchanged
(because payout was already processed) or only sets payout_processed. -/
theorem settle_wager_ok_inv {ctx : Ctx} {g g' : Game} {ts : List Transfer}
    (h : settle_wager ctx g = .ok (g', ts)) :
    (g' = g ∧ g.payout_processed = true) ∨ g' = { g with payout_processed := true } := by
  unfold settle_wager at h
  split_ifs at h with h1 h2 h3
  · simp only [Res.ok.injEq, Prod.mk.injEq] at h
    exact Or.inl ⟨h.1.symm, h1⟩
  · simp only [Res.ok.injEq, Prod.mk.injEq] at h
    exact Or.inr h.1.symm
  · split at h
    · simp at h
    · split at h
      · simp at h
      · simp only [Res.ok.injEq, Prod.mk.injEq] at h
        exact Or.inr h.1.symm

/-- Helper: resolved_update in the branch where the pending attacker is
player 1. -/
theorem resolved_update_p1 {g : Game} {a t : Nat} {s : Bool} (h : a = g.player1) :
    resolved_update g a t s =
      { g with
          player1_attacks := g.player1_attacks ++ [t]
          player1_hits := if s then satAdd32 g.player1_hits 1 else g.player1_hits
          player1_hit_attacks := if s then g.player1_hit_attacks ++ [t] else g.player1_hit_attacks
          turn := some g.player2
          pending_attacker := none
          pending_defender := none
          pending_x := none
          pending_y := none } := by
  unfold resolved_update
  rw [if_pos h]

/-- Helper: resolved_update in the branch where the pending attacker is
not player 1. -/
theorem resolved_update_p2 {g : Game} {a t : Nat} {s : Bool} (h : ¬ a = g.player1) :
    resolved_update g a t s =
      { g with
          player2_attacks := g.player2_attacks ++ [t]
          player2_hits := if s then satAdd32 g.player2_hits 1 else g.player2_hits
          player2_hit_attacks := if s then g.player2_hit_attacks ++ [t] else g.player2_hit_attacks
          turn := some g.player1
          pending_attacker := none
          pending_defender := none
          pending_x := none
          pending_y := none } := by
  unfold resolved_update
  rw [if_neg h]

/-- Helper: a successful apply_resolved_attack required a pending attacker
and produced the resolved_update state, possibly with winner and
payout_processed overridden by the victory check and settlement. -/
theorem apply_resolved_attack_ok_main {ctx : Ctx} {g : Game} {t : Nat} {s : Bool}
    {g' : Game} {ts : List Transfer}
    (h : apply_resolved_attack ctx g t s = .ok (g', ts)) :
    ∃ a, g.pending_attacker = some a ∧
      ∃ w pp, g' = { resolved_update g a t s with winner := w, payout_processed := pp } := by
  unfold apply_resolved_attack at h
  split at h
  · simp at h
  · rename_i a heq
    refine ⟨a, heq, ?_⟩
    dsimp only at h
    split_ifs at h with hv1 hv2
    · rcases settle_wager_ok_inv h with ⟨he, _⟩ | he
      · exact ⟨some (resolved_update g a t s).player1, (resolved_update g a t s).payout_processed,
          by rw [he]⟩
      · exact ⟨some (resolved_update g a t s).player1, true, by rw [he]⟩
    · rcases settle_wager_ok_inv h with ⟨he, _⟩ | he
      · exact ⟨some (resolved_update g a t s).player2, (resolved_update g a t s).payout_processed,
          by rw [he]⟩
      · exact ⟨some (resolved_update g a t s).player2, true, by rw [he]⟩
    · simp only [Res.ok.injEq, Prod.mk.injEq] at h
      exact ⟨(resolved_update g a t s).winner, (resolved_update g a t s).payout_processed, h.1.symm⟩

/-- Claim C4: on the direct resolve path, with a pending attack at (x, y)
whose stored commitment is c, a cell-reveal hash mismatch fails
InvalidCellReveal; with the reveal hash matching, a proof hash different
from hash(is_ship_byte ++ salt ++ x_be32 ++ y_be32) fails
InvalidProofHash; and success requires both equalities. -/
theorem C4_reveal_binding (ctx : Ctx) (sid : Nat) (g : Game) (d x y : Nat)
    (board : List (List Nat)) (c : List Nat) (is_ship : Bool) (salt ph : List Nat)
    (sig : Option (List Nat))
    (hw : g.winner = none) (hpd : g.pending_defender = some d)
    (hpx : g.pending_x = some x) (hpy : g.pending_y = some y)
    (hzk : ctx.zkConfigured = false)
    (hboard : (d = g.player1 ∧ g.player1_board = some board) ∨
      (d ≠ g.player1 ∧ d = g.player2 ∧ g.player2_board = some board))
    (hc : board.get? (satAdd32 (satMul32 y g.board_size) x) = some c) :
    (ctx.hash ((if is_ship then 1 else 0) :: salt) ≠ c →
      resolve_attack ctx sid (some g) d is_ship salt ph sig = .err .InvalidCellReveal) ∧
    (ctx.hash ((if is_ship then 1 else 0) :: salt) = c →
      ph ≠ ctx.hash (append_u32_be (append_u32_be ((if is_ship then 1 else 0) :: salt) x) y) →
      resolve_attack ctx sid (some g) d is_ship salt ph sig = .err .InvalidProofHash) ∧
    (∀ r, resolve_attack ctx sid (some g) d is_ship salt ph sig = .ok r →
      ctx.hash ((if is_ship then 1 else 0) :: salt) = c ∧
      ph = ctx.hash (append_u32_be (append_u32_be ((if is_ship then 1 else 0) :: salt) x) y)) := by
  have hred : resolve_attack ctx sid (some g) d is_ship salt ph sig =
      resolve_reveal ctx sid g x y board is_ship salt ph sig := by
    rcases hboard with ⟨hd1, hb⟩ | ⟨hd1, hd2, hb⟩
    · subst hd1
      simp [resolve_attack, resolve_attack_core, hw, hpd, hpx, hpy, hzk, hb]
    · subst hd2
      simp [resolve_attack, resolve_attack_core, hw, hpd, hpx, hpy, hzk, hd1, hb]
  refine ⟨fun hne => ?_, fun heq hnep => ?_, fun r hok => ?_⟩
  · rw [hred]
    simp only [resolve_reveal, hc]
    rw [if_pos (Ne.symm hne)]
  · rw [hred]
    simp only [resolve_reveal, hc]
    rw [if_neg (fun hcc => hcc heq.symm), if_pos hnep]
  · rw [hred] at hok
    simp only [resolve_reveal, hc] at hok
    by_cases h1 : c = ctx.hash ((if is_ship then 1 else 0) :: salt)
    · by_cases h2 : ph = ctx.hash (append_u32_be (append_u32_be ((if is_ship then 1 else 0) :: salt) x) y)
      · exact ⟨h1.symm, h2⟩
      · rw [if_neg (fun hcc => hcc h1), if_pos h2] at hok
        simp at hok
    · rw [if_pos h1] at hok
      simp at hok

theorem C4_witness :
    resolve_attack exCtx 0 (some exPending) 2 true [7] [0] none = .err .InvalidCellReveal ∧
    resolve_attack exCtx 0 (some exPending) 2 true [9] [0] none = .err .InvalidProofHash := by
  refine ⟨?_, ?_⟩
  · exact (C4_reveal_binding exCtx 0 exPending 2 0 0 [[1, 9]] [1, 9] true [7] [0] none rfl rfl rfl
      rfl rfl (Or.inr ⟨by decide, rfl, rfl⟩) (by decide)).1 (by decide)
  · exact (C4_reveal_binding exCtx 0 exPending 2 0 0 [[1, 9]] [1, 9] true [9] [0] none rfl rfl rfl
      rfl rfl (Or.inr ⟨by decide, rfl, rfl⟩) (by decide)).2.1 (by decide) (by decide)

/-- Helper: resolved_update does not change the two player identities. -/
theorem resolved_update_players (g : Game) (a t : Nat) (s : Bool) :
    (resolved_update g a t s).player1 = g.player1 ∧ (resolved_update g a t s).player2 = g.player2 := by
  by_cases h : a = g.player1
  · rw [resolved_update_p1 h]
    exact ⟨rfl, rfl⟩
  · rw [resolved_update_p2 h]
    exact ⟨rfl, rfl⟩

/-- Helper: resolved_update does not change winner, payout flag, ship-cell
counts, boards, stakes or deposit flags. -/
theorem resolved_update_misc (g : Game) (a t : Nat) (s : Bool) :
    (resolved_update g a t s).payout_processed = g.payout_processed ∧
    (resolved_update g a t s).winner = g.winner ∧
    (resolved_update g a t s).player1_ship_cells = g.player1_ship_cells ∧
    (resolved_update g a t s).player2_ship_cells = g.player2_ship_cells ∧
    (resolved_update g a t s).board_size = g.board_size ∧
    (resolved_update g a t s).player1_board = g.player1_board ∧
    (resolved_update g a t s).player2_board = g.player2_board ∧
    (resolved_update g a t s).player1_deposited = g.player1_deposited ∧
    (resolved_update g a t s).player2_deposited = g.player2_deposited ∧
    (resolved_update g a t s).player1_points = g.player1_points ∧
    (resolved_update g a t s).player2_points = g.player2_points := by
  by_cases h : a = g.player1
  · rw [resolved_update_p1 h]
    exact ⟨rfl, rfl, rfl, rfl, rfl, rfl, rfl, rfl, rfl, rfl, rfl⟩
  · rw [resolved_update_p2 h]
    exact ⟨rfl, rfl, rfl, rfl, rfl, rfl, rfl, rfl, rfl, rfl, rfl⟩

/-- Claim C2: once winner is set, attack, resolve_attack, resolve_attack_zk,
commit_board, commit_board_zk and deposit_stake all fail GameAlreadyEnded
(so no session state changes again); and a successful resolution whose
updated hit counter reaches the opponent ship-cell count (default 17) sets
winner to that player and completes settlement (payout_processed) in the
same call. -/
theorem C2_terminal_and_victory :
    (∀ g w a x y, g.winner = some w →
      attack (some g) a x y = .err .GameAlreadyEnded) ∧
    (∀ ctx sid g w d s salt ph sig, g.winner = some w →
      resolve_attack ctx sid (some g) d s salt ph sig = .err .GameAlreadyEnded) ∧
    (∀ ctx sid g w d proof, g.winner = some w →
      resolve_attack_zk ctx sid (some g) d proof = .err .GameAlreadyEnded) ∧
    (∀ ctx g w sid p cc sc ph sig, g.winner = some w →
      commit_board ctx (some g) sid p cc sc ph sig = .err .GameAlreadyEnded) ∧
    (∀ ctx g w sid p cc sc proof, g.winner = some w →
      commit_board_zk ctx (some g) sid p cc sc proof = .err .GameAlreadyEnded) ∧
    (∀ ctx g w p, g.winner = some w →
      deposit_stake ctx (some g) p = .err .GameAlreadyEnded) ∧
    (∀ ctx g t s g' ts, apply_resolved_attack ctx g t s = .ok (g', ts) →
      (g'.player1_hits ≥ g'.player2_ship_cells.getD DEFAULT_SHIP_CELLS →
        g'.winner = some g.player1 ∧ g'.payout_processed = true) ∧
      (g'.player1_hits < g'.player2_ship_cells.getD DEFAULT_SHIP_CELLS →
        g'.player2_hits ≥ g'.player1_ship_cells.getD DEFAULT_SHIP_CELLS →
        g'.winner = some g.player2 ∧ g'.payout_processed = true)) := by
  refine ⟨?_, ?_, ?_, ?_, ?_, ?_, ?_⟩
  · intro g w a x y hw
    simp [attack, attack_core, hw]
  · intro ctx sid g w d s salt ph sig hw
    simp [resolve_attack, resolve_attack_core, hw]
  · intro ctx sid g w d proof hw
    simp [resolve_attack_zk, resolve_attack_zk_core, hw]
  · intro ctx g w sid p cc sc ph sig hw
    simp [commit_board, commit_board_core, hw]
  · intro ctx g w sid p cc sc proof hw
    simp [commit_board_zk, commit_board_zk_core, hw]
  · intro ctx g w p hw
    simp [deposit_stake, deposit_stake_core, hw]
  · intro ctx g t s g' ts h
    unfold apply_resolved_attack at h
    split at h
    · simp at h
    · rename_i a heq
      dsimp only at h
      split_ifs at h with hv1 hv2
      · rcases settle_wager_ok_inv h with ⟨he, hp⟩ | he
        · refine ⟨fun _ => ⟨?_, ?_⟩, fun hlt _ => absurd hlt (not_lt.mpr ?_)⟩
          · rw [he]
            show some (resolved_update g a t s).player1 = some g.player1
            rw [(resolved_update_players g a t s).1]
          · rw [he]
            exact hp
          · rw [he]
            exact hv1
        · refine ⟨fun _ => ⟨?_, ?_⟩, fun hlt _ => absurd hlt (not_lt.mpr ?_)⟩
          · rw [he]
            show some (resolved_update g a t s).player1 = some g.player1
            rw [(resolved_update_players g a t s).1]
          · rw [he]
          · rw [he]
            exact hv1
      · rcases settle_wager_ok_inv h with ⟨he, hp⟩ | he
        · refine ⟨fun hge => absurd hge (?_), fun _ _ => ⟨?_, ?_⟩⟩
          · rw [he]
            exact not_le.mpr (lt_of_not_ge hv1)
          · rw [he]
            show some (resolved_update g a t s).player2 = some g.player2
            rw [(resolved_update_players g a t s).2]
          · rw [he]
            exact hp
        · refine ⟨fun hge => absurd hge (?_), fun _ _ => ⟨?_, ?_⟩⟩
          · rw [he]
            exact not_le.mpr (lt_of_not_ge hv1)
          · rw [he]
            show some (resolved_update g a t s).player2 = some g.player2
            rw [(resolved_update_players g a t s).2]
          · rw [he]
      · simp only [Res.ok.injEq, Prod.mk.injEq] at h
        rcases h with ⟨he, -⟩
        refine ⟨fun hge => absurd hge ?_, fun _ hge => absurd hge ?_⟩
        · rw [← he]
          exact not_le.mpr (lt_of_not_ge hv1)
        · rw [← he]
          exact not_le.mpr (lt_of_not_ge hv2)

set_option maxRecDepth 4000 in
theorem C2_witness :
    attack (some exEnded) 1 0 0 = .err .GameAlreadyEnded ∧
    deposit_stake exCtx (some exEnded) 1 = .err .GameAlreadyEnded ∧
    commit_board exCtx (some exEnded) 0 1 [[1, 9]] 1 none none = .err .GameAlreadyEnded ∧
    exResolved.winner = some exPending.player1 ∧ exResolved.payout_processed = true := by
  have hv := (C2_terminal_and_victory.2.2.2.2.2.2 exCtx exPending 0 true exResolved []
    (by decide)).1 (by decide)
  exact ⟨C2_terminal_and_victory.1 exEnded 1 1 0 0 rfl,
    C2_terminal_and_victory.2.2.2.2.2.1 exCtx exEnded 1 1 rfl,
    C2_terminal_and_victory.2.2.2.1 exCtx exEnded 1 0 1 [[1, 9]] 1 none none rfl, hv.1, hv.2⟩

/-- Helper: saturating u32 increment below the cap is an exact increment. -/
theorem satAdd32_one {a : Nat} (h : a < U32_MAX) : satAdd32 a 1 = a + 1 := by
  unfold satAdd32 U32_MAX at *
  omega

set_option maxHeartbeats 2000000 in
/-- Helper: a successful direct resolve_attack went through the reveal
checks and ended in apply_resolved_attack at the pending cell. -/
theorem resolve_attack_ok_inv {ctx : Ctx} {sid : Nat} {g : Game} {d : Nat} {s : Bool}
    {salt ph : List Nat} {sig : Option (List Nat)} {r : Game × List Transfer}
    (h : resolve_attack ctx sid (some g) d s salt ph sig = .ok r) :
    ∃ x y, g.pending_x = some x ∧ g.pending_y = some y ∧
      apply_resolved_attack ctx g (satAdd32 (satMul32 y g.board_size) x) s = .ok r := by
  simp only [resolve_attack] at h
  unfold resolve_attack_core resolve_reveal at h
  dsimp only at h
  repeat' split at h
  all_goals try exact absurd h (by simp)
  all_goals exact ⟨_, _, by assumption, by assumption, h⟩

/-- Helper: given the pending lock and the defender board cell,
resolve_attack_zk reduces to apply_resolved_attack with the verifier
verdict as is_ship. -/
theorem resolve_attack_zk_red {ctx : Ctx} {sid : Nat} {g : Game} {d x y : Nat}
    {board : List (List Nat)} {c : List Nat} {proof : List Nat}
    (hw : g.winner = none) (hpd : g.pending_defender = some d)
    (hpx : g.pending_x = some x) (hpy : g.pending_y = some y)
    (hzk : ctx.zkConfigured = true)
    (hboard : (d = g.player1 ∧ g.player1_board = some board) ∨
      (d ≠ g.player1 ∧ d = g.player2 ∧ g.player2_board = some board))
    (hc : board.get? (satAdd32 (satMul32 y g.board_size) x) = some c) :
    resolve_attack_zk ctx sid (some g) d proof =
      apply_resolved_attack ctx g (satAdd32 (satMul32 y g.board_size) x)
        (ctx.verifyAttack sid x y c proof) := by
  rcases hboard with ⟨hd1, hb⟩ | ⟨hd1, hd2, hb⟩
  · subst hd1
    simp [resolve_attack_zk, resolve_attack_zk_core, hw, hpd, hpx, hpy, hzk, hb]
    rw [← List.get?_eq_getElem?, hc]
  · subst hd2
    simp [resolve_attack_zk, resolve_attack_zk_core, hw, hpd, hpx, hpy, hzk, hd1, hb]
    rw [← List.get?_eq_getElem?, hc]

/-- Helper: the state effects of a successful apply_resolved_attack for a
pending attacker who is one of the two players, with the pending defender
being the other. -/
theorem apply_resolved_attack_ok_post {ctx : Ctx} {g : Game} {t : Nat} {s : Bool}
    {g' : Game} {ts : List Transfer} {a d : Nat}
    (hpa : g.pending_attacker = some a)
    (hrole : (a = g.player1 ∧ d = g.player2) ∨ (a ≠ g.player1 ∧ a = g.player2 ∧ d = g.player1))
    (hhits : (if a = g.player1 then g.player1_hits else g.player2_hits) < U32_MAX)
    (h : apply_resolved_attack ctx g t s = .ok (g', ts)) :
    (g'.pending_attacker = none ∧ g'.pending_defender = none ∧
      g'.pending_x = none ∧ g'.pending_y = none) ∧
    g'.turn = some d ∧
    (a = g.player1 →
      g'.player1_attacks = g.player1_attacks ++ [t] ∧
      g'.player1_hit_attacks = (if s then g.player1_hit_attacks ++ [t] else g.player1_hit_attacks) ∧
      g'.player1_hits = (if s then g.player1_hits + 1 else g.player1_hits) ∧
      g'.player2_attacks = g.player2_attacks ∧
      g'.player2_hit_attacks = g.player2_hit_attacks ∧
      g'.player2_hits = g.player2_hits) ∧
    (¬ a = g.player1 →
      g'.player2_attacks = g.player2_attacks ++ [t] ∧
      g'.player2_hit_attacks = (if s then g.player2_hit_attacks ++ [t] else g.player2_hit_attacks) ∧
      g'.player2_hits = (if s then g.player2_hits + 1 else g.player2_hits) ∧
      g'.player1_attacks = g.player1_attacks ∧
      g'.player1_hit_attacks = g.player1_hit_attacks ∧
      g'.player1_hits = g.player1_hits) := by
  obtain ⟨a', hpa', w, pp, he⟩ := apply_resolved_attack_ok_main h
  rw [hpa] at hpa'
  injection hpa' with haa
  subst haa
  by_cases hcase : a = g.player1
  · rcases hrole with ⟨-, hd⟩ | ⟨hne, -, -⟩
    · rw [resolved_update_p1 hcase] at he
      subst he hd
      refine ⟨⟨rfl, rfl, rfl, rfl⟩, rfl, fun _ => ⟨rfl, rfl, ?_, rfl, rfl, rfl⟩,
        fun hno => absurd hcase hno⟩
      rw [if_pos hcase] at hhits
      cases s
      · rfl
      · simp [satAdd32_one hhits]
    · exact absurd hcase hne
  · rcases hrole with ⟨heq, -⟩ | ⟨-, -, hd⟩
    · exact absurd heq hcase
    · rw [resolved_update_p2 hcase] at he
      subst he hd
      refine ⟨⟨rfl, rfl, rfl, rfl⟩, rfl, fun hyes => absurd hyes hcase,
        fun _ => ⟨rfl, rfl, ?_, rfl, rfl, rfl⟩⟩
      rw [if_neg hcase] at hhits
      cases s
      · rfl
      · simp [satAdd32_one hhits]

/-- Claim C3: in the AttackPending state (pending attacker a, defender d
the other player, pending cell (x, y)), a successful resolve on either
path appends exactly the pending cell index to the attacker's attack
history, appends it to the attacker's hit history and increments the
attacker's hit counter by one exactly when is_ship holds (the verifier
verdict on the zk path), leaves the other player's histories and counter
unchanged, clears all four pending fields, and sets turn to the defender. -/
theorem C3_resolve_effects :
    (∀ ctx sid g d a x y s salt ph sig g' ts,
      g.pending_attacker = some a → g.pending_x = some x → g.pending_y = some y →
      ((a = g.player1 ∧ d = g.player2) ∨ (a ≠ g.player1 ∧ a = g.player2 ∧ d = g.player1)) →
      (if a = g.player1 then g.player1_hits else g.player2_hits) < U32_MAX →
      resolve_attack ctx sid (some g) d s salt ph sig = .ok (g', ts) →
      ((g'.pending_attacker = none ∧ g'.pending_defender = none ∧
        g'.pending_x = none ∧ g'.pending_y = none) ∧
      g'.turn = some d ∧
      (a = g.player1 →
        g'.player1_attacks = g.player1_attacks ++ [satAdd32 (satMul32 y g.board_size) x] ∧
        g'.player1_hit_attacks =
          (if s then g.player1_hit_attacks ++ [satAdd32 (satMul32 y g.board_size) x]
           else g.player1_hit_attacks) ∧
        g'.player1_hits = (if s then g.player1_hits + 1 else g.player1_hits) ∧
        g'.player2_attacks = g.player2_attacks ∧
        g'.player2_hit_attacks = g.player2_hit_attacks ∧
        g'.player2_hits = g.player2_hits) ∧
      (¬ a = g.player1 →
        g'.player2_attacks = g.player2_attacks ++ [satAdd32 (satMul32 y g.board_size) x] ∧
        g'.player2_hit_attacks =
          (if s then g.player2_hit_attacks ++ [satAdd32 (satMul32 y g.board_size) x]
           else g.player2_hit_attacks) ∧
        g'.player2_hits = (if s then g.player2_hits + 1 else g.player2_hits) ∧
        g'.player1_attacks = g.player1_attacks ∧
        g'.player1_hit_attacks = g.player1_hit_attacks ∧
        g'.player1_hits = g.player1_hits))) ∧
    (∀ ctx sid g d a x y board c proof g' ts,
      g.winner = none → g.pending_attacker = some a → g.pending_defender = some d →
      g.pending_x = some x → g.pending_y = some y → ctx.zkConfigured = true →
      ((d = g.player1 ∧ g.player1_board = some board) ∨
        (d ≠ g.player1 ∧ d = g.player2 ∧ g.player2_board = some board)) →
      board.get? (satAdd32 (satMul32 y g.board_size) x) = some c →
      ((a = g.player1 ∧ d = g.player2) ∨ (a ≠ g.player1 ∧ a = g.player2 ∧ d = g.player1)) →
      (if a = g.player1 then g.player1_hits else g.player2_hits) < U32_MAX →
      resolve_attack_zk ctx sid (some g) d proof = .ok (g', ts) →
      ((g'.pending_attacker = none ∧ g'.pending_defender = none ∧
        g'.pending_x = none ∧ g'.pending_y = none) ∧
      g'.turn = some d ∧
      (a = g.player1 →
        g'.player1_attacks = g.player1_attacks ++ [satAdd32 (satMul32 y g.board_size) x] ∧
        g'.player1_hit_attacks =
          (if ctx.verifyAttack sid x y c proof then
            g.player1_hit_attacks ++ [satAdd32 (satMul32 y g.board_size) x]
           else g.player1_hit_attacks) ∧
        g'.player1_hits =
          (if ctx.verifyAttack sid x y c proof then g.player1_hits + 1 else g.player1_hits) ∧
        g'.player2_attacks = g.player2_attacks ∧
        g'.player2_hit_attacks = g.player2_hit_attacks ∧
        g'.player2_hits = g.player2_hits) ∧
      (¬ a = g.player1 →
        g'.player2_attacks = g.player2_attacks ++ [satAdd32 (satMul32 y g.board_size) x] ∧
        g'.player2_hit_attacks =
          (if ctx.verifyAttack sid x y c proof then
            g.player2_hit_attacks ++ [satAdd32 (satMul32 y g.board_size) x]
           else g.player2_hit_attacks) ∧
        g'.player2_hits =
          (if ctx.verifyAttack sid x y c proof then g.player2_hits + 1 else g.player2_hits) ∧
        g'.player1_attacks = g.player1_attacks ∧
        g'.player1_hit_attacks = g.player1_hit_attacks ∧
        g'.player1_hits = g.player1_hits))) := by
  constructor
  · intro ctx sid g d a x y s salt ph sig g' ts hpa hpx hpy hrole hhits hok
    obtain ⟨x', y', hpx', hpy', happly⟩ := resolve_attack_ok_inv hok
    rw [hpx] at hpx'
    injection hpx' with hx
    rw [hpy] at hpy'
    injection hpy' with hy
    subst hx hy
    exact apply_resolved_attack_ok_post hpa hrole hhits happly
  · intro ctx sid g d a x y board c proof g' ts hw hpa hpd hpx hpy hzk hboard hc hrole hhits hok
    rw [resolve_attack_zk_red hw hpd hpx hpy hzk hboard hc] at hok
    exact apply_resolved_attack_ok_post hpa hrole hhits hok

set_option maxRecDepth 4000 in
theorem C3_witness :
    exResolved.player1_attacks = exPending.player1_attacks ++ [0] ∧
    exResolved.player1_hits = exPending.player1_hits + 1 ∧
    exResolved.player1_hit_attacks = exPending.player1_hit_attacks ++ [0] ∧
    exResolved.player2_attacks = exPending.player2_attacks ∧
    exResolved.turn = some 2 ∧ exResolved.pending_attacker = none := by
  have h := C3_resolve_effects.1 exCtx 0 exPending 2 1 0 0 true [9]
    [1, 9, 0, 0, 0, 0, 0, 0, 0, 0] none exResolved [] rfl rfl rfl
    (Or.inl ⟨rfl, rfl⟩) (by decide) (by decide)
  obtain ⟨⟨hp1, -, -, -⟩, ht, hyes, -⟩ := h
  have h2 := hyes rfl
  refine ⟨?_, by simpa using h2.2.2.1, by simpa using h2.2.1, h2.2.2.2.1, ht, hp1⟩
  simpa using h2.1

/-- Helper: unpacking the boolean invariant into its four components. -/
theorem inv_parts {g : Game} (hinv : Inv g = true) :
    histOk g = true ∧ turnOk g = true ∧ fundedOk g = true ∧ pendingOk g = true := by
  unfold Inv at hinv
  simp only [Bool.and_eq_true] at hinv
  tauto

/-- Helper: the turn component of the invariant names one of the players. -/
theorem turnOk_decode {g : Game} {t : Nat} (h : turnOk g = true) (ht : g.turn = some t) :
    t = g.player1 ∨ t = g.player2 := by
  unfold turnOk at h
  rw [ht] at h
  simpa using h

/-- Helper: in a wager game with a committed board, both stakes are
deposited. -/
theorem fundedOk_decode {g : Game} (h : fundedOk g = true) (hw : is_wager_game g = true)
    (hb : g.player1_board.isSome = true ∨ g.player2_board.isSome = true) :
    g.player1_deposited = true ∧ g.player2_deposited = true := by
  unfold fundedOk at h
  rw [if_pos ⟨hw, hb⟩] at h
  simpa using h

/-- Helper: a held pending lock names a player and a target cell that is
not yet in that player's attack history. -/
theorem pendingOk_decode {g : Game} {a : Nat} (h : pendingOk g = true)
    (hpa : g.pending_attacker = some a) :
    ∃ x y, g.pending_x = some x ∧ g.pending_y = some y ∧
      ((a = g.player1 ∧
        contains_u32 g.player1_attacks (satAdd32 (satMul32 y g.board_size) x) = false) ∨
       (¬ a = g.player1 ∧ a = g.player2 ∧
        contains_u32 g.player2_attacks (satAdd32 (satMul32 y g.board_size) x) = false)) := by
  unfold pendingOk at h
  rw [hpa] at h
  cases hx : g.pending_x with
  | none =>
    rw [hx] at h
    cases hy : g.pending_y with
    | none => rw [hy] at h; simp at h
    | some y => rw [hy] at h; simp at h
  | some x =>
    cases hy : g.pending_y with
    | none => rw [hx, hy] at h; simp at h
    | some y =>
      rw [hx, hy] at h
      dsimp only at h
      refine ⟨x, y, rfl, rfl, ?_⟩
      by_cases hc : a = g.player1
      · rw [if_pos hc] at h
        exact Or.inl ⟨hc, by simpa using h⟩
      · rw [if_neg hc] at h
        simp only [Bool.and_eq_true, decide_eq_true_eq] at h
        exact Or.inr ⟨hc, h.1, by simpa using h.2⟩

/-- Helper: the history component of the invariant, in propositional form. -/
theorem histOk_decode {g : Game} (h : histOk g = true) :
    g.player1_attacks.Nodup ∧ g.player2_attacks.Nodup ∧
    (∀ c ∈ g.player1_hit_attacks, c ∈ g.player1_attacks) ∧
    (∀ c ∈ g.player2_hit_attacks, c ∈ g.player2_attacks) := by
  unfold histOk at h
  simp only [Bool.and_eq_true, decide_eq_true_eq, List.all_eq_true] at h
  obtain ⟨⟨⟨h1, h2⟩, h3⟩, h4⟩ := h
  refine ⟨h1, h2, fun c hc => ?_, fun c hc => ?_⟩
  · simpa using h3 c hc
  · simpa using h4 c hc

/-- Helper: contains_u32 is list membership. -/
theorem contains_u32_iff_mem {l : List Nat} {v : Nat} : contains_u32 l v = true ↔ v ∈ l := by
  induction l with
  | nil => simp [contains_u32]
  | cons a l ih =>
    simp only [contains_u32, List.mem_cons]
    by_cases hav : a = v
    · simp [hav]
    · rw [if_neg hav, ih]
      constructor
      · exact Or.inr
      · rintro (h | h)
        · exact absurd h.symm hav
        · exact h

/-- Helper: contains_u32 false is non-membership. -/
theorem contains_u32_eq_false {l : List Nat} {v : Nat} : contains_u32 l v = false ↔ v ∉ l := by
  constructor
  · intro h hm
    rw [← contains_u32_iff_mem, h] at hm
    cases hm
  · intro h
    cases hb : contains_u32 l v
    · rfl
    · exact absurd (contains_u32_iff_mem.mp hb) h

/-- Helper: building the turn component of the invariant. -/
theorem turnOk_encode {g : Game}
    (h : ∀ t, g.turn = some t → t = g.player1 ∨ t = g.player2) : turnOk g = true := by
  unfold turnOk
  cases ht : g.turn with
  | none => rfl
  | some t => simpa using h t ht

/-- Helper: building the funding component of the invariant. -/
theorem fundedOk_encode {g : Game}
    (h : is_wager_game g = true →
      (g.player1_board.isSome = true ∨ g.player2_board.isSome = true) →
      g.player1_deposited = true ∧ g.player2_deposited = true) : fundedOk g = true := by
  unfold fundedOk
  split_ifs with hc
  · obtain ⟨h1, h2⟩ := h hc.1 hc.2
    simp [h1, h2]
  · rfl

/-- Helper: building the pending-lock component of the invariant. -/
theorem pendingOk_encode {g : Game}
    (h : ∀ a, g.pending_attacker = some a →
      ∃ x y, g.pending_x = some x ∧ g.pending_y = some y ∧
        ((a = g.player1 ∧
          contains_u32 g.player1_attacks (satAdd32 (satMul32 y g.board_size) x) = false) ∨
         (¬ a = g.player1 ∧ a = g.player2 ∧
          contains_u32 g.player2_attacks (satAdd32 (satMul32 y g.board_size) x) = false))) :
    pendingOk g = true := by
  unfold pendingOk
  cases hpa : g.pending_attacker with
  | none => rfl
  | some a =>
    obtain ⟨x, y, hx, hy, hcase⟩ := h a hpa
    rw [hx, hy]
    dsimp only
    rcases hcase with ⟨hc, hcont⟩ | ⟨hc, hc2, hcont⟩
    · rw [if_pos hc]
      simp [hcont]
    · rw [if_neg hc]
      simp [hc2, hcont]

/-- Helper: building the history component of the invariant. -/
theorem histOk_encode {g : Game}
    (h1 : g.player1_attacks.Nodup) (h2 : g.player2_attacks.Nodup)
    (h3 : ∀ c ∈ g.player1_hit_attacks, c ∈ g.player1_attacks)
    (h4 : ∀ c ∈ g.player2_hit_attacks, c ∈ g.player2_attacks) : histOk g = true := by
  unfold histOk
  simp only [Bool.and_eq_true, decide_eq_true_eq, List.all_eq_true]
  exact ⟨⟨⟨h1, h2⟩, fun c hc => by simpa using h3 c hc⟩, fun c hc => by simpa using h4 c hc⟩

/-- Helper: assembling the invariant from its components. -/
theorem Inv_encode {g : Game} (h1 : histOk g = true) (h2 : turnOk g = true)
    (h3 : fundedOk g = true) (h4 : pendingOk g = true) : Inv g = true := by
  unfold Inv
  simp [h1, h2, h3, h4]

/-- Helper: attack succeeds when all its checks pass, producing exactly the
pending-lock update. -/
theorem attack_succeeds {g : Game} {a x y : Nat}
    (hw : g.winner = none)
    (hfund : is_wager_game g = true → g.player1_deposited = true ∧ g.player2_deposited = true)
    (hx : x < g.board_size) (hy : y < g.board_size)
    (hb1 : g.player1_board.isSome = true) (hb2 : g.player2_board.isSome = true)
    (hpa : g.pending_attacker = none) (ht : g.turn = some a)
    (hmem : a = g.player1 ∨ a = g.player2)
    (hcont : contains_u32 (if a = g.player1 then g.player1_attacks else g.player2_attacks)
      (satAdd32 (satMul32 y g.board_size) x) = false) :
    attack (some g) a x y = .ok (set_pending g a x y) := by
  have hd : ¬ (is_wager_game g = true ∧
      ¬ (g.player1_deposited = true ∧ g.player2_deposited = true)) :=
    fun hcc => hcc.2 (hfund hcc.1)
  have h3 : ¬ (x ≥ g.board_size ∨ y ≥ g.board_size) := by omega
  have hb : ¬ (g.player1_board.isNone = true ∨ g.player2_board.isNone = true) := by
    rcases Option.isSome_iff_exists.mp hb1 with ⟨b1, hb1'⟩
    rcases Option.isSome_iff_exists.mp hb2 with ⟨b2, hb2'⟩
    simp [hb1', hb2']
  simp only [attack]
  unfold attack_core
  rw [hw, if_neg (by simp), if_neg hd, if_neg h3, if_neg hb, hpa, if_neg (by simp), ht]
  dsimp only
  rw [if_neg (show ¬ a ≠ a from fun hh => hh rfl)]
  by_cases hm : a = g.player1
  · rw [if_pos hm] at hcont
    rw [if_pos hm, hcont, if_neg (by simp)]
  · have hm2 : a = g.player2 := hmem.resolve_left hm
    rw [if_neg hm] at hcont
    rw [if_neg hm, if_pos hm2, hcont, if_neg (by simp)]

/-- Helper: what a successful attack implies about the prior state and the
produced state. -/
theorem attack_ok_inv {g : Game} {a x y : Nat} {g' : Game}
    (h : attack (some g) a x y = .ok g') :
    g.winner = none ∧
    x < g.board_size ∧ y < g.board_size ∧
    g.player1_board.isSome = true ∧ g.player2_board.isSome = true ∧
    g.pending_attacker = none ∧ g.turn = some a ∧
    ((a = g.player1 ∧
      contains_u32 g.player1_attacks (satAdd32 (satMul32 y g.board_size) x) = false) ∨
     (¬ a = g.player1 ∧ a = g.player2 ∧
      contains_u32 g.player2_attacks (satAdd32 (satMul32 y g.board_size) x) = false)) ∧
    g' = set_pending g a x y := by
  simp only [attack] at h
  unfold attack_core at h
  dsimp only at h
  repeat' split at h
  all_goals try exact Res.noConfusion h
  all_goals
    simp only [Res.ok.injEq] at h
    subst h
    refine ⟨?_, by omega, by omega, ?_, ?_, ?_, ?_, ?_, rfl⟩ <;>
      simp_all [not_ne_iff, Option.isSome_iff_ne_none]

/-- Claim C5: under the session invariant, attack succeeds exactly when the
session is Active (boards committed, no winner, no pending lock), the
caller is the player whose turn it is, the coordinates are on the board,
and the target cell was not previously attacked by this attacker; on
success it only sets the four pending-lock fields; a held lock fails
PendingAttackResolution and a repeated cell fails AlreadyAttacked. -/
theorem C5_attack_spec (g : Game) (a x y : Nat) (hinv : Inv g = true) :
    ((∃ g', attack (some g) a x y = .ok g') ↔
      (g.winner = none ∧ g.player1_board.isSome = true ∧ g.player2_board.isSome = true ∧
       g.pending_attacker = none ∧ g.turn = some a ∧ x < g.board_size ∧ y < g.board_size ∧
       contains_u32 (if a = g.player1 then g.player1_attacks else g.player2_attacks)
         (satAdd32 (satMul32 y g.board_size) x) = false)) ∧
    (∀ g', attack (some g) a x y = .ok g' → g' = set_pending g a x y) ∧
    (g.winner = none → x < g.board_size → y < g.board_size →
      g.player1_board.isSome = true → g.player2_board.isSome = true →
      g.pending_attacker.isSome = true →
      attack (some g) a x y = .err .PendingAttackResolution) ∧
    (g.winner = none → x < g.board_size → y < g.board_size →
      g.player1_board.isSome = true → g.player2_board.isSome = true →
      g.pending_attacker = none → g.turn = some a →
      contains_u32 (if a = g.player1 then g.player1_attacks else g.player2_attacks)
        (satAdd32 (satMul32 y g.board_size) x) = true →
      attack (some g) a x y = .err .AlreadyAttacked) := by
  obtain ⟨hH, hT, hF, hP⟩ := inv_parts hinv
  refine ⟨⟨?_, ?_⟩, ?_, ?_, ?_⟩
  · rintro ⟨g', hok⟩
    obtain ⟨hw, hx, hy, hb1, hb2, hpa, ht, hdisj, -⟩ := attack_ok_inv hok
    refine ⟨hw, hb1, hb2, hpa, ht, hx, hy, ?_⟩
    rcases hdisj with ⟨hp1, hc⟩ | ⟨hnp1, -, hc⟩
    · rw [if_pos hp1]
      exact hc
    · rw [if_neg hnp1]
      exact hc
  · rintro ⟨hw, hb1, hb2, hpa, ht, hx, hy, hcont⟩
    exact ⟨_, attack_succeeds hw (fun hwag => fundedOk_decode hF hwag (Or.inl hb1)) hx hy
      hb1 hb2 hpa ht (turnOk_decode hT ht) hcont⟩
  · intro g' hok
    exact (attack_ok_inv hok).2.2.2.2.2.2.2.2
  · intro hw hx hy hb1 hb2 hpend
    have hd : ¬ (is_wager_game g = true ∧
        ¬ (g.player1_deposited = true ∧ g.player2_deposited = true)) :=
      fun hcc => hcc.2 (fundedOk_decode hF hcc.1 (Or.inl hb1))
    have h3 : ¬ (x ≥ g.board_size ∨ y ≥ g.board_size) := by omega
    have hbno : ¬ (g.player1_board.isNone = true ∨ g.player2_board.isNone = true) := by
      rcases Option.isSome_iff_exists.mp hb1 with ⟨b1, hb1'⟩
      rcases Option.isSome_iff_exists.mp hb2 with ⟨b2, hb2'⟩
      simp [hb1', hb2']
    simp only [attack]
    unfold attack_core
    rw [hw, if_neg (by simp), if_neg hd, if_neg h3, if_neg hbno, if_pos hpend]
  · intro hw hx hy hb1 hb2 hpa ht hcont
    have hd : ¬ (is_wager_game g = true ∧
        ¬ (g.player1_deposited = true ∧ g.player2_deposited = true)) :=
      fun hcc => hcc.2 (fundedOk_decode hF hcc.1 (Or.inl hb1))
    have h3 : ¬ (x ≥ g.board_size ∨ y ≥ g.board_size) := by omega
    have hbno : ¬ (g.player1_board.isNone = true ∨ g.player2_board.isNone = true) := by
      rcases Option.isSome_iff_exists.mp hb1 with ⟨b1, hb1'⟩
      rcases Option.isSome_iff_exists.mp hb2 with ⟨b2, hb2'⟩
      simp [hb1', hb2']
    simp only [attack]
    unfold attack_core
    rw [hw, if_neg (by simp), if_neg hd, if_neg h3, if_neg hbno, hpa, if_neg (by simp), ht]
    dsimp only
    rw [if_neg (show ¬ a ≠ a from fun hh => hh rfl)]
    by_cases hm : a = g.player1
    · rw [if_pos hm] at hcont
      rw [if_pos hm, hcont, if_pos rfl]
    · have hm2 : a = g.player2 := (turnOk_decode hT ht).resolve_left hm
      rw [if_neg hm] at hcont
      rw [if_neg hm, if_pos hm2, hcont, if_pos rfl]

set_option maxRecDepth 4000 in
theorem C5_witness :
    Inv exActive = true ∧
    attack (some exActive) 1 0 0 = .ok (set_pending exActive 1 0 0) ∧
    attack (some exPending) 1 0 0 = .err .PendingAttackResolution := by
  refine ⟨by decide, ?_, ?_⟩
  · obtain ⟨hiff, hpost, -, -⟩ := C5_attack_spec exActive 1 0 0 (by decide)
    obtain ⟨g', hok⟩ := hiff.mpr (by decide)
    exact hpost g' hok ▸ hok
  · exact (C5_attack_spec exPending 1 0 0 (by decide)).2.2.1 rfl (by decide) (by decide)
      rfl rfl rfl

/-- Helper: appending a fresh element keeps a list duplicate-free. -/
theorem nodup_append_single {l : List Nat} {t : Nat} (h1 : l.Nodup) (h2 : t ∉ l) :
    (l ++ [t]).Nodup := by
  rw [List.nodup_append]
  refine ⟨h1, List.nodup_singleton t, fun a ha hat => ?_⟩
  rw [List.mem_singleton] at hat
  subst hat
  exact h2 ha

/-- Helper: a successful start_game stored exactly the fresh game. -/
theorem start_game_ok_inv {store : Option Game} {p1 p2 : Nat} {s1 s2 : Int} {g : Game}
    (h : start_game store p1 p2 s1 s2 = .ok g) : g = initial_game p1 p2 s1 s2 := by
  unfold start_game at h
  split_ifs at h
  simp only [Res.ok.injEq] at h
  exact h.symm

/-- Helper: the invariant holds for every fresh session. -/
theorem inv_initial (p1 p2 : Nat) (s1 s2 : Int) : Inv (initial_game p1 p2 s1 s2) = true := by
  apply Inv_encode
  · apply histOk_encode <;> simp [initial_game]
  · apply turnOk_encode
    intro t htt
    simp [initial_game] at htt
  · apply fundedOk_encode
    intro hwag hb
    simp [initial_game] at hb
  · apply pendingOk_encode
    intro a ha
    simp [initial_game] at ha

/-- Helper: a successful commit_board implies wager funding and reduces to
apply_board_commit. -/
theorem commit_board_ok_inv {ctx : Ctx} {g : Game} {sid p : Nat} {cc : List (List Nat)}
    {sc : Nat} {ph sig : Option (List Nat)} {g' : Game}
    (h : commit_board ctx (some g) sid p cc sc ph sig = .ok g') :
    (is_wager_game g = true → g.player1_deposited = true ∧ g.player2_deposited = true) ∧
    apply_board_commit g p cc sc = .ok g' := by
  simp only [commit_board] at h
  unfold commit_board_core at h
  try dsimp only at h
  repeat' split at h
  all_goals try exact Res.noConfusion h
  all_goals exact ⟨fun hwag => by tauto, h⟩

/-- Helper: a successful commit_board_zk implies wager funding and reduces
to apply_board_commit. -/
theorem commit_board_zk_ok_inv {ctx : Ctx} {g : Game} {sid p : Nat} {cc : List (List Nat)}
    {sc : Nat} {proof : List Nat} {g' : Game}
    (h : commit_board_zk ctx (some g) sid p cc sc proof = .ok g') :
    (is_wager_game g = true → g.player1_deposited = true ∧ g.player2_deposited = true) ∧
    apply_board_commit g p cc sc = .ok g' := by
  simp only [commit_board_zk] at h
  unfold commit_board_zk_core at h
  try dsimp only at h
  repeat' split at h
  all_goals try exact Res.noConfusion h
  all_goals exact ⟨fun hwag => by tauto, h⟩

/-- Helper: a successful apply_board_commit only rewrites boards,
ship-cell counts and (possibly, to player1) the turn. -/
theorem apply_board_commit_ok_inv {g : Game} {p : Nat} {cc : List (List Nat)} {sc : Nat}
    {g' : Game} (h : apply_board_commit g p cc sc = .ok g') :
    ∃ nb1 nb2 ns1 ns2 nt, (nt = g.turn ∨ nt = some g.player1) ∧
      g' =
        { g with
            player1_board := nb1,
            player2_board := nb2,
            player1_ship_cells := ns1,
            player2_ship_cells := ns2,
            turn := nt } := by
  unfold apply_board_commit finish_board_commit at h
  repeat' split at h
  all_goals try exact Res.noConfusion h
  all_goals simp only [Res.ok.injEq] at h
  all_goals subst h
  all_goals first
    | exact ⟨_, _, _, _, _, Or.inl rfl, rfl⟩
    | exact ⟨_, _, _, _, _, Or.inr rfl, rfl⟩

/-- Helper: a successful deposit_stake leaves the game unchanged or only
sets one deposited flag. -/
theorem deposit_stake_ok_inv {ctx : Ctx} {g : Game} {p : Nat} {g' : Game} {ts : List Transfer}
    (h : deposit_stake ctx (some g) p = .ok (g', ts)) :
    g' = g ∨ g' = { g with player1_deposited := true } ∨
      g' = { g with player2_deposited := true } := by
  simp only [deposit_stake] at h
  unfold deposit_stake_core deposit_transfer mark_deposited at h
  try dsimp only at h
  repeat' split at h
  all_goals try exact Res.noConfusion h
  all_goals simp only [Res.ok.injEq, Prod.mk.injEq] at h
  all_goals first
    | exact Or.inl h.1.symm
    | exact Or.inr (Or.inl h.1.symm)
    | exact Or.inr (Or.inr h.1.symm)

/-- Helper: a successful resolve_attack_zk ends in apply_resolved_attack
at the pending cell with some verdict. -/
theorem resolve_attack_zk_ok_inv {ctx : Ctx} {sid : Nat} {g : Game} {d : Nat}
    {proof : List Nat} {r : Game × List Transfer}
    (h : resolve_attack_zk ctx sid (some g) d proof = .ok r) :
    ∃ x y s, g.pending_x = some x ∧ g.pending_y = some y ∧
      apply_resolved_attack ctx g (satAdd32 (satMul32 y g.board_size) x) s = .ok r := by
  simp only [resolve_attack_zk] at h
  unfold resolve_attack_zk_core at h
  try dsimp only at h
  repeat' split at h
  all_goals try exact Res.noConfusion h
  all_goals exact ⟨_, _, _, by assumption, by assumption, h⟩

/-- Helper: board commits preserve the session invariant (given the
funding check of the commit entry points). -/
theorem inv_preserved_board_commit {g : Game} {p : Nat} {cc : List (List Nat)} {sc : Nat}
    {g' : Game} (hinv : Inv g = true)
    (hfund : is_wager_game g = true → g.player1_deposited = true ∧ g.player2_deposited = true)
    (h : apply_board_commit g p cc sc = .ok g') : Inv g' = true := by
  obtain ⟨hH, hT, hF, hP⟩ := inv_parts hinv
  obtain ⟨nb1, nb2, ns1, ns2, nt, hnt, he⟩ := apply_board_commit_ok_inv h
  subst he
  apply Inv_encode
  · exact hH
  · apply turnOk_encode
    intro t htt
    have htt' : nt = some t := htt
    rcases hnt with hsame | hp1
    · have hgt : g.turn = some t := by rw [← hsame]; exact htt'
      have hconc := turnOk_decode hT hgt
      exact hconc
    · rw [hp1] at htt'
      injection htt' with hteq
      exact Or.inl hteq.symm
  · apply fundedOk_encode
    intro hwag hb
    have hwag' : is_wager_game g = true := hwag
    exact hfund hwag'
  · exact hP

/-- Helper: stake deposits preserve the session invariant. -/
theorem inv_preserved_deposit {ctx : Ctx} {g : Game} {p : Nat} {g' : Game} {ts : List Transfer}
    (hinv : Inv g = true) (h : deposit_stake ctx (some g) p = .ok (g', ts)) : Inv g' = true := by
  obtain ⟨hH, hT, hF, hP⟩ := inv_parts hinv
  rcases deposit_stake_ok_inv h with he | he | he
  · subst he
    exact hinv
  · subst he
    apply Inv_encode
    · exact hH
    · apply turnOk_encode
      intro t htt
      have hconc := turnOk_decode hT (show g.turn = some t from htt)
      exact hconc
    · apply fundedOk_encode
      intro hwag hb
      have hd := fundedOk_decode hF (show is_wager_game g = true from hwag)
        (show g.player1_board.isSome = true ∨ g.player2_board.isSome = true from hb)
      exact ⟨rfl, hd.2⟩
    · exact hP
  · subst he
    apply Inv_encode
    · exact hH
    · apply turnOk_encode
      intro t htt
      have hconc := turnOk_decode hT (show g.turn = some t from htt)
      exact hconc
    · apply fundedOk_encode
      intro hwag hb
      have hd := fundedOk_decode hF (show is_wager_game g = true from hwag)
        (show g.player1_board.isSome = true ∨ g.player2_board.isSome = true from hb)
      exact ⟨hd.1, rfl⟩
    · exact hP

/-- Helper: attacks preserve the session invariant. -/
theorem inv_preserved_attack {g : Game} {a x y : Nat} {g' : Game}
    (hinv : Inv g = true) (h : attack (some g) a x y = .ok g') : Inv g' = true := by
  obtain ⟨hH, hT, hF, hP⟩ := inv_parts hinv
  obtain ⟨-, -, -, -, -, -, -, hdisj, he⟩ := attack_ok_inv h
  subst he
  apply Inv_encode
  · exact hH
  · apply turnOk_encode
    intro t htt
    have hconc := turnOk_decode hT (show g.turn = some t from htt)
    exact hconc
  · apply fundedOk_encode
    intro hwag hb
    have hconc := fundedOk_decode hF (show is_wager_game g = true from hwag)
      (show g.player1_board.isSome = true ∨ g.player2_board.isSome = true from hb)
    exact hconc
  · apply pendingOk_encode
    intro a0 h0
    have h0' : (some a : Option Nat) = some a0 := h0
    injection h0' with ha0
    subst ha0
    exact ⟨x, y, rfl, rfl, hdisj⟩

/-- Helper: resolving the pending attack preserves the session invariant. -/
theorem inv_preserved_apply {ctx : Ctx} {g : Game} {x y : Nat} {s : Bool}
    {g' : Game} {ts : List Transfer}
    (hinv : Inv g = true) (hx : g.pending_x = some x) (hy : g.pending_y = some y)
    (h : apply_resolved_attack ctx g (satAdd32 (satMul32 y g.board_size) x) s = .ok (g', ts)) :
    Inv g' = true := by
  obtain ⟨hH, hT, hF, hP⟩ := inv_parts hinv
  obtain ⟨hn1, hn2, hs1, hs2⟩ := histOk_decode hH
  obtain ⟨a, hpa, w, pp, he⟩ := apply_resolved_attack_ok_main h
  obtain ⟨x', y', hx', hy', hdisj⟩ := pendingOk_decode hP hpa
  rw [hx] at hx'
  injection hx' with hxx
  rw [hy] at hy'
  injection hy' with hyy
  subst hxx hyy
  by_cases hcase : a = g.player1
  · rw [resolved_update_p1 hcase] at he
    subst he
    rcases hdisj with ⟨-, hc⟩ | ⟨hne, -, -⟩
    · have hnot : satAdd32 (satMul32 y g.board_size) x ∉ g.player1_attacks :=
        contains_u32_eq_false.mp hc
      apply Inv_encode
      · apply histOk_encode
        · exact nodup_append_single hn1 hnot
        · exact hn2
        · intro c hcmem
          cases s with
          | false =>
            have hcm : c ∈ g.player1_hit_attacks := hcmem
            exact List.mem_append_left _ (hs1 c hcm)
          | true =>
            have hcm : c ∈ g.player1_hit_attacks ++ [satAdd32 (satMul32 y g.board_size) x] := hcmem
            rcases List.mem_append.mp hcm with hh | hh
            · exact List.mem_append_left _ (hs1 c hh)
            · exact List.mem_append_right _ hh
        · intro c hcmem
          exact hs2 c hcmem
      · apply turnOk_encode
        intro t0 ht0
        have ht0' : (some g.player2 : Option Nat) = some t0 := ht0
        injection ht0' with hteq
        exact Or.inr hteq.symm
      · apply fundedOk_encode
        intro hwag hb
        have hconc := fundedOk_decode hF (show is_wager_game g = true from hwag)
          (show g.player1_board.isSome = true ∨ g.player2_board.isSome = true from hb)
        exact hconc
      · apply pendingOk_encode
        intro a0 h0
        exact Option.noConfusion h0
    · exact absurd hcase hne
  · rw [resolved_update_p2 hcase] at he
    subst he
    rcases hdisj with ⟨heq, -⟩ | ⟨-, -, hc⟩
    · exact absurd heq hcase
    · have hnot : satAdd32 (satMul32 y g.board_size) x ∉ g.player2_attacks :=
        contains_u32_eq_false.mp hc
      apply Inv_encode
      · apply histOk_encode
        · exact hn1
        · exact nodup_append_single hn2 hnot
        · intro c hcmem
          exact hs1 c hcmem
        · intro c hcmem
          cases s with
          | false =>
            have hcm : c ∈ g.player2_hit_attacks := hcmem
            exact List.mem_append_left _ (hs2 c hcm)
          | true =>
            have hcm : c ∈ g.player2_hit_attacks ++ [satAdd32 (satMul32 y g.board_size) x] := hcmem
            rcases List.mem_append.mp hcm with hh | hh
            · exact List.mem_append_left _ (hs2 c hh)
            · exact List.mem_append_right _ hh
      · apply turnOk_encode
        intro t0 ht0
        have ht0' : (some g.player1 : Option Nat) = some t0 := ht0
        injection ht0' with hteq
        exact Or.inl hteq.symm
      · apply fundedOk_encode
        intro hwag hb
        have hconc := fundedOk_decode hF (show is_wager_game g = true from hwag)
          (show g.player1_board.isSome = true ∨ g.player2_board.isSome = true from hb)
        exact hconc
      · apply pendingOk_encode
        intro a0 h0
        exact Option.noConfusion h0

/-- Helper: every successful contract call preserves the session
invariant. -/
theorem step_preserves_inv {g g' : Game} (h : Step g g') (hinv : Inv g = true) :
    Inv g' = true := by
  cases h with
  | commit ctx sid p cc sc ph sig _ _ hok =>
    obtain ⟨hfund, happ⟩ := commit_board_ok_inv hok
    exact inv_preserved_board_commit hinv hfund happ
  | commitZk ctx sid p cc sc proof _ _ hok =>
    obtain ⟨hfund, happ⟩ := commit_board_zk_ok_inv hok
    exact inv_preserved_board_commit hinv hfund happ
  | doAttack a x y _ _ hok => exact inv_preserved_attack hinv hok
  | doResolve ctx sid d s salt ph sig _ _ ts hok =>
    obtain ⟨x, y, hx, hy, happ⟩ := resolve_attack_ok_inv hok
    exact inv_preserved_apply hinv hx hy happ
  | doResolveZk ctx sid d proof _ _ ts hok =>
    obtain ⟨x, y, s, hx, hy, happ⟩ := resolve_attack_zk_ok_inv hok
    exact inv_preserved_apply hinv hx hy happ
  | doDeposit ctx p _ _ ts hok => exact inv_preserved_deposit hinv hok

/-- Helper: the session invariant holds in every reachable state. -/
theorem reachable_inv {g : Game} (h : Reachable g) : Inv g = true := by
  induction h with
  | start store p1 p2 s1 s2 g0 hok =>
    rw [start_game_ok_inv hok]
    exact inv_initial p1 p2 s1 s2
  | step g1 g2 _ hstep ih => exact step_preserves_inv hstep ih

/-- Helper: a single successful call only ever appends to the attack
histories. -/
theorem step_append {g g' : Game} (h : Step g g') :
    (∃ s1, g'.player1_attacks = g.player1_attacks ++ s1) ∧
    (∃ s2, g'.player2_attacks = g.player2_attacks ++ s2) := by
  cases h with
  | commit ctx sid p cc sc ph sig _ _ hok =>
    obtain ⟨-, happ⟩ := commit_board_ok_inv hok
    obtain ⟨nb1, nb2, ns1, ns2, nt, -, he⟩ := apply_board_commit_ok_inv happ
    subst he
    exact ⟨⟨[], (List.append_nil _).symm⟩, ⟨[], (List.append_nil _).symm⟩⟩
  | commitZk ctx sid p cc sc proof _ _ hok =>
    obtain ⟨-, happ⟩ := commit_board_zk_ok_inv hok
    obtain ⟨nb1, nb2, ns1, ns2, nt, -, he⟩ := apply_board_commit_ok_inv happ
    subst he
    exact ⟨⟨[], (List.append_nil _).symm⟩, ⟨[], (List.append_nil _).symm⟩⟩
  | doAttack a x y _ _ hok =>
    obtain ⟨-, -, -, -, -, -, -, -, he⟩ := attack_ok_inv hok
    subst he
    exact ⟨⟨[], (List.append_nil _).symm⟩, ⟨[], (List.append_nil _).symm⟩⟩
  | doResolve ctx sid d s salt ph sig _ _ ts hok =>
    obtain ⟨x, y, -, -, happ⟩ := resolve_attack_ok_inv hok
    obtain ⟨a, -, w, pp, he⟩ := apply_resolved_attack_ok_main happ
    subst he
    by_cases hcase : a = g.player1
    · rw [resolved_update_p1 hcase]
      exact ⟨⟨[satAdd32 (satMul32 y g.board_size) x], rfl⟩, ⟨[], (List.append_nil _).symm⟩⟩
    · rw [resolved_update_p2 hcase]
      exact ⟨⟨[], (List.append_nil _).symm⟩, ⟨[satAdd32 (satMul32 y g.board_size) x], rfl⟩⟩
  | doResolveZk ctx sid d proof _ _ ts hok =>
    obtain ⟨x, y, s, -, -, happ⟩ := resolve_attack_zk_ok_inv hok
    obtain ⟨a, -, w, pp, he⟩ := apply_resolved_attack_ok_main happ
    subst he
    by_cases hcase : a = g.player1
    · rw [resolved_update_p1 hcase]
      exact ⟨⟨[satAdd32 (satMul32 y g.board_size) x], rfl⟩, ⟨[], (List.append_nil _).symm⟩⟩
    · rw [resolved_update_p2 hcase]
      exact ⟨⟨[], (List.append_nil _).symm⟩, ⟨[satAdd32 (satMul32 y g.board_size) x], rfl⟩⟩
  | doDeposit ctx p _ _ ts hok =>
    rcases deposit_stake_ok_inv hok with he | he | he <;> subst he <;>
      exact ⟨⟨[], (List.append_nil _).symm⟩, ⟨[], (List.append_nil _).symm⟩⟩

/-- Claim C9: in every session state reachable from start_game, the attack
histories are duplicate-free and the hit histories are contained in the
corresponding attack histories; and every single successful call only
appends to the attack histories. -/
theorem C9_history_invariants :
    (∀ g, Reachable g →
      g.player1_attacks.Nodup ∧ g.player2_attacks.Nodup ∧
      (∀ c ∈ g.player1_hit_attacks, c ∈ g.player1_attacks) ∧
      (∀ c ∈ g.player2_hit_attacks, c ∈ g.player2_attacks)) ∧
    (∀ g g', Reachable g → Step g g' →
      (∃ s1, g'.player1_attacks = g.player1_attacks ++ s1) ∧
      (∃ s2, g'.player2_attacks = g.player2_attacks ++ s2)) := by
  constructor
  · intro g hg
    exact histOk_decode (inv_parts (reachable_inv hg)).1
  · intro g g' _ hstep
    exact step_append hstep

set_option maxRecDepth 4000 in
theorem C9_witness :
    ((initial_game 1 2 5 0).player1_attacks.Nodup ∧
      (initial_game 1 2 5 0).player2_attacks.Nodup ∧
      (∀ c ∈ (initial_game 1 2 5 0).player1_hit_attacks,
        c ∈ (initial_game 1 2 5 0).player1_attacks) ∧
      (∀ c ∈ (initial_game 1 2 5 0).player2_hit_attacks,
        c ∈ (initial_game 1 2 5 0).player2_attacks)) ∧
    ((∃ s1, ({ initial_game 1 2 5 0 with player1_deposited := true } : Game).player1_attacks =
        (initial_game 1 2 5 0).player1_attacks ++ s1) ∧
      (∃ s2, ({ initial_game 1 2 5 0 with player1_deposited := true } : Game).player2_attacks =
        (initial_game 1 2 5 0).player2_attacks ++ s2)) := by
  have hreach : Reachable (initial_game 1 2 5 0) :=
    Reachable.start none 1 2 5 0 (initial_game 1 2 5 0) rfl
  refine ⟨C9_history_invariants.1 (initial_game 1 2 5 0) hreach, ?_⟩
  have hstep : Step (initial_game 1 2 5 0) { initial_game 1 2 5 0 with player1_deposited := true } :=
    Step.doDeposit exCtx 1 (initial_game 1 2 5 0)
      { initial_game 1 2 5 0 with player1_deposited := true } [(1, 99, 5)] (by decide)
  exact C9_history_invariants.2 (initial_game 1 2 5 0)
    { initial_game 1 2 5 0 with player1_deposited := true } hreach hstep
